import Mathlib

/-!
Verification of the broker-software exception engine.

This file gives a shallow embedding, in Lean 4, of the core pipeline of the
broker operations dashboard:

* the rule engine (`packages/shared/src/engine/rules.ts`),
* the evaluator (`packages/shared/src/engine/evaluate.ts`),
* the attention sorter (`packages/shared/src/engine/sort.ts`),
* the notification differ (`packages/shared/src/engine/notifications.ts`),
* the action deriver (`packages/shared/src/actions/derive.ts`),
* the action-state store (`apps/web/lib/actionStateStore.ts`),
* the persistence wrappers around JSON/localStorage.

Conventions of the embedding:

* JavaScript millisecond timestamps are `Int`; `Date.parse` results are
  `Option Int`, with `none` standing for `NaN` coerced to `+Infinity`.
* An ISO timestamp string is modelled by `ISOTime`: the raw string paired
  with its parse result, since the engine both compares parsed values and
  embeds the raw string in messages.
* JavaScript objects used as string-keyed maps are association lists.
* `Array.prototype.sort(cmp)` (stable in ES2019+) is `List.mergeSort` with
  the relation `fun a b => cmp a b ≤ 0`.
* Fallible operations (`JSON.parse`, storage access) are `Option`/`Except`.
-/

namespace Broker

attribute [local semireducible] List.mergeSort List.merge

/-- Load status: the three-valued traffic-light classification of `types.ts`. -/
inductive LoadStatus
  | green
  | yellow
  | red
deriving DecidableEq

/-- Exception severity (`engine/types.ts`): `watch` or `risk`. -/
inductive Severity
  | watch
  | risk
deriving DecidableEq

/-- An ISO-8601 timestamp string as the engine sees it: the raw string together
with its `Date.parse` result (`none` when parsing yields `NaN`). -/
structure ISOTime where
  raw : String
  parsed : Option Int
deriving DecidableEq

/-- A freight load (`types.ts`), restricted to the fields the engine reads. -/
structure Load where
  id : String
  status : LoadStatus
  riskReason : Option String
  originCityState : String
  destCityState : String
  pickupWindowStartISO : ISOTime
  pickupWindowEndISO : ISOTime
  deliveryWindowStartISO : ISOTime
  deliveryWindowEndISO : ISOTime
  carrierName : String
  carrierPhone : String
  lastGpsMinutesAgo : Option Nat
  nextAction : String
deriving DecidableEq

/-- A rule-detected problem condition on a load (`engine/types.ts`).
Exception codes are string literals in the source, so `code` is a `String`. -/
structure Exception where
  code : String
  severity : Severity
  status : LoadStatus
  title : String
  detail : String
  nextAction : String
  score : Int
deriving DecidableEq

/-- Rule-evaluation context (`rules.ts`): the current time, as epoch ms. -/
structure RuleCtx where
  now : Int
deriving DecidableEq

/-- `parseISOToMs` (rules.ts): `Date.parse`, coercing non-finite results to
`+Infinity`; `+Infinity` is represented by `none`. -/
def parseISOToMs (t : ISOTime) : Option Int :=
  t.parsed

/-- `hours` (rules.ts): `n * 60 * MINUTE` with `MINUTE = 60_000`. -/
def hoursMs (n : Int) : Int :=
  n * 60 * 60000

/-- `isLate` (rules.ts): `nowMs > parseISOToMs(windowEndISO)`; false when the
end parses to `+Infinity`. -/
def isLate (nowMs : Int) (windowEnd : ISOTime) : Bool :=
  match parseISOToMs windowEnd with
  | none => false
  | some endMs => nowMs > endMs

/-- `startsWithin` (rules.ts): only before the start, and within `withinMs`.
A `+Infinity` start never satisfies either test of the source. -/
def startsWithin (nowMs : Int) (windowStart : ISOTime) (withinMs : Int) : Bool :=
  match parseISOToMs windowStart with
  | none => false
  | some startMs =>
    if nowMs ≥ startMs then false
    else startMs - nowMs ≤ withinMs

/-- Rule score constants (rules.ts `SCORES`). -/
def SCORES_NO_GPS : Int := 1000

def SCORES_PICKUP_LATE : Int := 950

def SCORES_DELIVERY_LATE : Int := 900

def SCORES_GPS_STALE_RISK : Int := 850

def SCORES_GPS_STALE_WATCH : Int := 450

def SCORES_PICKUP_WINDOW_SOON : Int := 350

def SCORES_DELIVERY_WINDOW_SOON : Int := 300

/-- `ruleNoGps` (rules.ts): fires risk/red exactly when `lastGpsMinutesAgo` is null. -/
def ruleNoGps (load : Load) (_ctx : RuleCtx) : Option Exception :=
  match load.lastGpsMinutesAgo with
  | some _ => none
  | none =>
    some
      { code := "NO_GPS"
        severity := .risk
        status := .red
        title := "No GPS"
        detail := "No GPS data received for this load."
        nextAction := "Contact driver/carrier to restore tracking immediately."
        score := SCORES_NO_GPS }

/-- `ruleGpsStale` (rules.ts): only when GPS exists; 60–120 min watch/yellow,
above 120 min risk/red, below 60 min nothing. -/
def ruleGpsStale (load : Load) (_ctx : RuleCtx) : Option Exception :=
  match load.lastGpsMinutesAgo with
  | none => none
  | some m =>
    if 60 ≤ m ∧ m ≤ 120 then
      some
        { code := "GPS_STALE"
          severity := .watch
          status := .yellow
          title := "GPS stale"
          detail := "GPS last updated " ++ toString m ++ " minutes ago."
          nextAction := "Ping driver/carrier for a fresh location update."
          score := SCORES_GPS_STALE_WATCH }
    else if 120 < m then
      some
        { code := "GPS_STALE"
          severity := .risk
          status := .red
          title := "GPS very stale"
          detail := "GPS last updated " ++ toString m ++ " minutes ago."
          nextAction := "Call driver/carrier—confirm location and ETA now."
          score := SCORES_GPS_STALE_RISK }
    else none

/-- `rulePickupLate` (rules.ts): fires risk/red iff the pickup window end is
present (truthy string) and now is strictly past it. -/
def rulePickupLate (load : Load) (ctx : RuleCtx) : Option Exception :=
  if load.pickupWindowEndISO.raw = "" then none
  else if isLate ctx.now load.pickupWindowEndISO then
    some
      { code := "PICKUP_LATE"
        severity := .risk
        status := .red
        title := "Pickup late"
        detail := "Pickup window ended at " ++ load.pickupWindowEndISO.raw ++ "."
        nextAction := "Call shipper + carrier to confirm pickup status and recovery plan."
        score := SCORES_PICKUP_LATE }
  else none

/-- `ruleDeliveryLate` (rules.ts): fires risk/red iff the delivery window end is
present (truthy string) and now is strictly past it. -/
def ruleDeliveryLate (load : Load) (ctx : RuleCtx) : Option Exception :=
  if load.deliveryWindowEndISO.raw = "" then none
  else if isLate ctx.now load.deliveryWindowEndISO then
    some
      { code := "DELIVERY_LATE"
        severity := .risk
        status := .red
        title := "Delivery late"
        detail := "Delivery window ended at " ++ load.deliveryWindowEndISO.raw ++ "."
        nextAction := "Call consignee + carrier to confirm delivery status and update customer."
        score := SCORES_DELIVERY_LATE }
  else none

/-- `rulePickupWindowSoon` (rules.ts): not already pickup-late, a start string
present, and the start is in the future within 2 hours. -/
def rulePickupWindowSoon (load : Load) (ctx : RuleCtx) : Option Exception :=
  if load.pickupWindowEndISO.raw ≠ "" ∧ isLate ctx.now load.pickupWindowEndISO then none
  else if load.pickupWindowStartISO.raw = "" then none
  else if !startsWithin ctx.now load.pickupWindowStartISO (hoursMs 2) then none
  else
    some
      { code := "PICKUP_WINDOW_SOON"
        severity := .watch
        status := .yellow
        title := "Pickup window soon"
        detail := "Pickup window starts at " ++ load.pickupWindowStartISO.raw ++ "."
        nextAction := "Confirm driver check-in and pickup readiness."
        score := SCORES_PICKUP_WINDOW_SOON }

/-- `ruleDeliveryWindowSoon` (rules.ts): not already delivery-late, a start
string present, and the start is in the future within 4 hours. -/
def ruleDeliveryWindowSoon (load : Load) (ctx : RuleCtx) : Option Exception :=
  if load.deliveryWindowEndISO.raw ≠ "" ∧ isLate ctx.now load.deliveryWindowEndISO then none
  else if load.deliveryWindowStartISO.raw = "" then none
  else if !startsWithin ctx.now load.deliveryWindowStartISO (hoursMs 4) then none
  else
    some
      { code := "DELIVERY_WINDOW_SOON"
        severity := .watch
        status := .yellow
        title := "Delivery window soon"
        detail := "Delivery window starts at " ++ load.deliveryWindowStartISO.raw ++ "."
        nextAction := "Confirm ETA and communicate delivery plan if needed."
        score := SCORES_DELIVERY_WINDOW_SOON }

/-- `evaluateRules` (rules.ts): run the six rules in source order, keeping the
fired exceptions. -/
def evaluateRules (load : Load) (ctx : RuleCtx) : List Exception :=
  [ruleNoGps load ctx, ruleGpsStale load ctx, rulePickupLate load ctx,
   ruleDeliveryLate load ctx, rulePickupWindowSoon load ctx,
   ruleDeliveryWindowSoon load ctx].filterMap id

/-- `computedStatusFromExceptions` (evaluate.ts). -/
def computedStatusFromExceptions (exceptions : List Exception) : LoadStatus :=
  if exceptions.any (fun e => e.status = .red) then .red
  else if exceptions.any (fun e => e.status = .yellow) then .yellow
  else .green

/-- `severityRank` (evaluate.ts and sort.ts): risk 2, watch 1. -/
def severityRank (sev : Severity) : Int :=
  match sev with
  | .risk => 2
  | .watch => 1

/-- The exception comparator shared by `sortExceptionsDeterministic`
(evaluate.ts) and `pickPrimaryException` (sort.ts): severity descending, then
score descending, then code ascending. -/
def exCmp (a b : Exception) : Int :=
  let sr := severityRank b.severity - severityRank a.severity
  if sr ≠ 0 then sr
  else if b.score ≠ a.score then b.score - a.score
  else if a.code < b.code then -1
  else if b.code < a.code then 1
  else 0

/-- The "may come first" relation induced by `exCmp` for the stable sort. -/
def exLe (a b : Exception) : Bool :=
  exCmp a b ≤ 0

/-- `sortExceptionsDeterministic` (evaluate.ts): stable sort by `exCmp`. -/
def sortExceptionsDeterministic (exceptions : List Exception) : List Exception :=
  exceptions.mergeSort exLe

/-- An evaluated load (`engine/types.ts`): the load plus computed fields. -/
structure EvaluatedLoad extends Load where
  computedStatus : LoadStatus
  computedRiskReason : Option String
  computedNextAction : String
  exceptions : List Exception
deriving DecidableEq

/-- `evaluateLoad` (evaluate.ts). -/
def evaluateLoad (load : Load) (now : Int) : EvaluatedLoad :=
  let exceptions := sortExceptionsDeterministic (evaluateRules load ⟨now⟩)
  let computedStatus := computedStatusFromExceptions exceptions
  let primary := exceptions.head?
  { toLoad := load
    computedStatus := computedStatus
    computedRiskReason :=
      if computedStatus = .green then none
      else some ((primary.map (fun e => e.detail)).getD "Needs attention.")
    computedNextAction :=
      if computedStatus = .green then "No action required."
      else (primary.map (fun e => e.nextAction)).getD "Review load."
    exceptions := exceptions }

/-- `evaluateAllLoads` (evaluate.ts): map preserving input order. -/
def evaluateAllLoads (loads : List Load) (now : Int) : List EvaluatedLoad :=
  loads.map (fun l => evaluateLoad l now)

/-- Strict comparison on extended timestamps, `none` being `+Infinity`. -/
def msLt (x y : Option Int) : Bool :=
  match x, y with
  | some a, some b => a < b
  | some _, none => true
  | none, _ => false

/-- `Math.min` on extended timestamps. -/
def msMin (x y : Option Int) : Option Int :=
  match x, y with
  | some a, some b => some (min a b)
  | some a, none => some a
  | none, b => b

/-- `parseISOToMsOrInf` (sort.ts): falsy (empty) or unparsable strings are
`+Infinity`, i.e. `none`. -/
def parseISOToMsOrInf (t : ISOTime) : Option Int :=
  if t.raw = "" then none else t.parsed

/-- `statusRank` (sort.ts): red 0, yellow 1, green 2 — lower is more urgent. -/
def statusRank (status : LoadStatus) : Int :=
  match status with
  | .red => 0
  | .yellow => 1
  | .green => 2

/-- `pickPrimaryException` (sort.ts): re-sort a copy of the exceptions by the
same severity/score/code comparator and take the head. -/
def pickPrimaryException (load : EvaluatedLoad) : Option Exception :=
  (load.exceptions.mergeSort exLe).head?

/-- `topScoreWithinStatus` (sort.ts): best score among exceptions whose own
status equals the load's computed status; `-1` if none (or green). -/
def topScoreWithinStatus (load : EvaluatedLoad) : Int :=
  if load.computedStatus = .green then -1
  else
    load.exceptions.foldl
      (fun best e =>
        if e.status = load.computedStatus ∧ best < e.score then e.score else best)
      (-1)

/-- `relevantDeadlineMs` (sort.ts): deadline keyed by the primary exception's
code; GPS codes take the earliest of the four window timestamps. -/
def relevantDeadlineMs (load : EvaluatedLoad) : Option Int :=
  match pickPrimaryException load with
  | none => none
  | some primary =>
    if primary.code = "PICKUP_LATE" then parseISOToMsOrInf load.pickupWindowEndISO
    else if primary.code = "PICKUP_WINDOW_SOON" then parseISOToMsOrInf load.pickupWindowStartISO
    else if primary.code = "DELIVERY_LATE" then parseISOToMsOrInf load.deliveryWindowEndISO
    else if primary.code = "DELIVERY_WINDOW_SOON" then parseISOToMsOrInf load.deliveryWindowStartISO
    else if primary.code = "NO_GPS" ∨ primary.code = "GPS_STALE" then
      msMin (parseISOToMsOrInf load.pickupWindowStartISO)
        (msMin (parseISOToMsOrInf load.pickupWindowEndISO)
          (msMin (parseISOToMsOrInf load.deliveryWindowStartISO)
            (parseISOToMsOrInf load.deliveryWindowEndISO)))
    else none

/-- The load comparator of `sortNeedsAttention` (sort.ts): status rank, then
top in-status score descending, then relevant deadline ascending, then id. -/
def cmpLoads (a b : EvaluatedLoad) : Int :=
  let ar := statusRank a.computedStatus
  let br := statusRank b.computedStatus
  if ar ≠ br then ar - br
  else
    let ascore := topScoreWithinStatus a
    let bscore := topScoreWithinStatus b
    if ascore ≠ bscore then bscore - ascore
    else
      let ad := relevantDeadlineMs a
      let bd := relevantDeadlineMs b
      if ad ≠ bd then (if msLt ad bd then -1 else 1)
      else if a.id < b.id then -1
      else if b.id < a.id then 1
      else 0

/-- The "may come first" relation induced by `cmpLoads`. -/
def loadLe (a b : EvaluatedLoad) : Bool :=
  cmpLoads a b ≤ 0

/-- `sortNeedsAttention` (sort.ts): stable sort of the evaluated loads. -/
def sortNeedsAttention (loads : List EvaluatedLoad) : List EvaluatedLoad :=
  loads.mergeSort loadLe

/-- `LoadSnapshot` (notifications.ts): a per-load fingerprint. -/
structure LoadSnapshot where
  status : LoadStatus
  exceptionCodes : List String
deriving DecidableEq

/-- `SnapshotMap`: a JS object keyed by load id, as an association list. -/
abbrev SnapshotMap := List (String × LoadSnapshot)

/-- Property lookup on a snapshot map. -/
def snapLookup (m : SnapshotMap) (k : String) : Option LoadSnapshot :=
  (m.find? (fun p => p.1 == k)).map (fun p => p.2)

/-- Property assignment on a snapshot map: overwrite in place, else append. -/
def snapSet (m : SnapshotMap) (k : String) (v : LoadSnapshot) : SnapshotMap :=
  if m.any (fun p => p.1 == k) then m.map (fun p => if p.1 == k then (k, v) else p)
  else m ++ [(k, v)]

/-- `stableCodes` (notifications.ts): exception codes sorted ascending. -/
def stableCodes (e : EvaluatedLoad) : List String :=
  (e.exceptions.map (fun x => x.code)).mergeSort (fun a b => !decide (b < a))

/-- `snapshotFromEvaluatedLoad` (notifications.ts). -/
def snapshotFromEvaluatedLoad (e : EvaluatedLoad) : LoadSnapshot :=
  { status := e.computedStatus, exceptionCodes := stableCodes e }

/-- `isNonGreen` (notifications.ts). -/
def isNonGreen (status : LoadStatus) : Bool :=
  status == .yellow || status == .red

/-- `shouldNotifyTransition` (notifications.ts): never on first sighting;
green to non-green, or yellow to red. -/
def shouldNotifyTransition (prev : Option LoadStatus) (next : LoadStatus) : Bool :=
  match prev with
  | none => false
  | some p =>
    if p = .green then isNonGreen next
    else if p = .yellow ∧ next = .red then true
    else false

/-- `primaryExceptionCode` (notifications.ts): head of the sorted exceptions. -/
def primaryExceptionCode (e : EvaluatedLoad) : Option String :=
  e.exceptions.head?.map (fun x => x.code)

/-- `primarySeverity` (notifications.ts). -/
def primarySeverity (e : EvaluatedLoad) : Severity :=
  if e.computedStatus = .red then .risk else .watch

/-- `makeNotificationId` (notifications.ts). -/
def makeNotificationId (loadId createdAtISO code : String) : String :=
  loadId ++ "::" ++ code ++ "::" ++ createdAtISO

/-- `oneLineMessage` (notifications.ts). -/
def oneLineMessage (e : EvaluatedLoad) : String :=
  let reason := e.computedRiskReason.getD "Needs attention."
  match primaryExceptionCode e with
  | some code => code ++ ": " ++ reason
  | none => reason

/-- `codesEqual` (notifications.ts): elementwise equality of the code lists. -/
def codesEqual (a b : List String) : Bool :=
  a == b

/-- A notification (`engine/types.ts`). -/
structure Notification where
  id : String
  loadId : String
  createdAtISO : String
  severity : Severity
  status : LoadStatus
  message : String
  exceptionCode : String
  acked : Bool
deriving DecidableEq

/-- `NotificationDiffOptions` (notifications.ts); the option defaults to off. -/
structure NotificationDiffOptions where
  notifyOnCodeChange : Option Bool
deriving DecidableEq

/-- The notification object pushed by both paths of `diffNotifications`. -/
def notificationFor (e : EvaluatedLoad) (createdAtISO code : String) : Notification :=
  { id := makeNotificationId e.id createdAtISO code
    loadId := e.id
    createdAtISO := createdAtISO
    severity := primarySeverity e
    status := (snapshotFromEvaluatedLoad e).status
    message := oneLineMessage e
    exceptionCode := code
    acked := false }

/-- The push guarded by `primaryExceptionCode` (the `if (!code) continue`
pattern of both paths of `diffNotifications`). -/
def primaryNotification (e : EvaluatedLoad) (createdAtISO : String) : List Notification :=
  match primaryExceptionCode e with
  | none => []
  | some code => [notificationFor e createdAtISO code]

/-- The optional code-change path of `diffNotifications`: both snapshots
non-green and a differing sorted code set. -/
def codeChangeNotification (prevSnap : Option LoadSnapshot) (createdAtISO : String)
    (e : EvaluatedLoad) : List Notification :=
  match prevSnap with
  | none => []
  | some ps =>
    if isNonGreen ps.status && isNonGreen (snapshotFromEvaluatedLoad e).status
        && !codesEqual ps.exceptionCodes (snapshotFromEvaluatedLoad e).exceptionCodes then
      primaryNotification e createdAtISO
    else []

/-- The per-load body of the `diffNotifications` loop: zero or one
notifications for the load `e`, given the previous snapshot map. -/
def notifyForLoad (prev : SnapshotMap) (createdAtISO : String)
    (notifyOnCodeChange : Bool) (e : EvaluatedLoad) : List Notification :=
  let snap := snapshotFromEvaluatedLoad e
  let prevSnap := snapLookup prev e.id
  let prevStatus := prevSnap.map (fun s => s.status)
  if shouldNotifyTransition prevStatus snap.status && isNonGreen snap.status then
    primaryNotification e createdAtISO
  else if notifyOnCodeChange then
    codeChangeNotification prevSnap createdAtISO e
  else []

/-- The `diffNotifications` loop, with the accumulated notification list and
the next snapshot map under construction. -/
def diffGo (prev : SnapshotMap) (createdAtISO : String) (notifyOnCodeChange : Bool) :
    List EvaluatedLoad → List Notification → SnapshotMap →
    List Notification × SnapshotMap
  | [], acc, next => (acc, next)
  | e :: rest, acc, next =>
    diffGo prev createdAtISO notifyOnCodeChange rest
      (acc ++ notifyForLoad prev createdAtISO notifyOnCodeChange e)
      (snapSet next e.id (snapshotFromEvaluatedLoad e))

/-- `diffNotifications` (notifications.ts). -/
def diffNotifications (prev : SnapshotMap) (current : List EvaluatedLoad)
    (createdAtISO : String) (options : NotificationDiffOptions) :
    List Notification × SnapshotMap :=
  diffGo prev createdAtISO (options.notifyOnCodeChange.getD false) current [] []

/-- Action lifecycle status (`actions/types.ts`). -/
inductive ActionStatus
  | OPEN
  | DONE
  | SNOOZED
deriving DecidableEq

/-- A derived operator action (`actions/types.ts` `BrokerAction`).
`actionType` is one of the string literals CALL/TEXT/MAP/EMAIL/NOTE. -/
structure BrokerAction where
  id : String
  loadId : String
  title : String
  detail : Option String
  actionType : String
  href : Option String
  priority : Nat
  dueAtISO : Option String
  createdAtISO : String
  status : ActionStatus
  ruleId : String
deriving DecidableEq

/-- `ExceptionLike` (actions/derive.ts): code plus optional due time. -/
structure ExceptionLike where
  code : String
  dueAtISO : Option String
deriving DecidableEq

/-- `ActionDeriveLoad` (actions/derive.ts). -/
structure ActionDeriveLoad where
  loadId : String
  lane : Option String
  carrierPhone : Option String
  driverPhone : Option String
  pickupAddress : Option String
  deliveryAddress : Option String
  exceptions : List ExceptionLike
deriving DecidableEq

/-- UTF-8 bytes of a character, for `encodeURIComponent`. -/
def utf8Bytes (c : Char) : List Nat :=
  let n := c.toNat
  if n < 128 then [n]
  else if n < 2048 then [192 + n / 64, 128 + n % 64]
  else if n < 65536 then [224 + n / 4096, 128 + (n / 64) % 64, 128 + n % 64]
  else [240 + n / 262144, 128 + (n / 4096) % 64, 128 + (n / 64) % 64, 128 + n % 64]

/-- Uppercase hexadecimal digit. -/
def hexDigit (n : Nat) : Char :=
  if n < 10 then Char.ofNat (48 + n) else Char.ofNat (55 + n)

/-- Characters `encodeURIComponent` leaves unescaped. -/
def isUriUnreserved (c : Char) : Bool :=
  c.isAlphanum || c == '-' || c == '_' || c == '.' || c == '!' || c == '~'
    || c == '*' || c == '\'' || c == '(' || c == ')'

/-- Model of JavaScript `encodeURIComponent`. -/
def encodeURIComponent (s : String) : String :=
  s.toList.foldl
    (fun acc c =>
      if isUriUnreserved c then acc ++ c.toString
      else
        acc ++ String.join
          ((utf8Bytes c).map (fun b =>
            "%" ++ (hexDigit (b / 16)).toString ++ (hexDigit (b % 16)).toString)))
    ""

/-- JavaScript whitespace for `String.prototype.trim` (common subset). -/
def isJsSpace (c : Char) : Bool :=
  c == ' ' || c == '\t' || c == '\n' || c == '\r' || c == Char.ofNat 11 || c == Char.ofNat 12

/-- Model of `String.prototype.trim`. -/
def jsTrim (s : String) : String :=
  (((s.toList.dropWhile isJsSpace).reverse.dropWhile isJsSpace).reverse).asString

/-- `normalizePhone` (actions/derive.ts): trim, keep `+` and digits, empty
results become undefined. -/
def normalizePhone (raw : Option String) : Option String :=
  match raw with
  | none => none
  | some s =>
    if s = "" then none
    else
      let cleaned := ((jsTrim s).toList.filter (fun c => c.isDigit || c == '+')).asString
      if cleaned.length = 0 then none else some cleaned

/-- `telHref` (actions/derive.ts). -/
def telHref (phone : Option String) : Option String :=
  (normalizePhone phone).map (fun p => "tel:" ++ p)

/-- `smsHref` (actions/derive.ts). -/
def smsHref (phone : Option String) (body : Option String) : Option String :=
  match normalizePhone phone with
  | none => none
  | some p =>
    let b := match body with
      | some s => encodeURIComponent s
      | none => ""
    if b = "" then some ("sms:" ++ p) else some ("sms:" ++ p ++ "?&body=" ++ b)

/-- `mapsHref` (actions/derive.ts). -/
def mapsHref (address : Option String) : Option String :=
  match address with
  | none => none
  | some a =>
    if a = "" then none
    else some ("https://www.google.com/maps/search/?api=1&query=" ++ encodeURIComponent a)

/-- JS `??` on optional strings (keeps empty strings, unlike `||`). -/
def nullish (a b : Option String) : Option String :=
  match a with
  | some x => some x
  | none => b

/-- The contact context passed to a rule's `href` builder. -/
structure HrefCtx where
  carrierPhone : Option String
  driverPhone : Option String
  pickupAddress : Option String
  deliveryAddress : Option String

/-- `RulePick` (actions/derive.ts): one entry of the action rule catalog. -/
structure RulePick where
  ruleId : String
  priority : Nat
  title : Option String → String
  detail : Option (Option String → String)
  actionType : String
  href : HrefCtx → Option String
  dueAtISO : Option (ExceptionLike → Option String)

/-- The lane suffix used by every rule title: nothing for a falsy lane. -/
def laneSuffix (lane : Option String) : String :=
  match lane with
  | none => ""
  | some l => if l = "" then "" else " (" ++ l ++ ")"

/-- `RULES.NO_GPS_CALL` (actions/derive.ts). -/
def NO_GPS_CALL : RulePick :=
  { ruleId := "NO_GPS_CALL"
    priority := 1
    title := fun lane => "Call carrier: location update" ++ laneSuffix lane
    detail := some (fun _ => "Confirm truck location and next check-in time.")
    actionType := "CALL"
    href := fun ctx => telHref (nullish ctx.carrierPhone ctx.driverPhone)
    dueAtISO := some (fun ex => ex.dueAtISO) }

/-- `RULES.GPS_STALE_TEXT` (actions/derive.ts). -/
def GPS_STALE_TEXT : RulePick :=
  { ruleId := "GPS_STALE_TEXT"
    priority := 1
    title := fun lane => "Text carrier: send location" ++ laneSuffix lane
    detail := some (fun _ => "Request updated location + ETA.")
    actionType := "TEXT"
    href := fun ctx =>
      smsHref (nullish ctx.carrierPhone ctx.driverPhone)
        (some "Please send current location and ETA. Thanks.")
    dueAtISO := some (fun ex => ex.dueAtISO) }

/-- `RULES.PICKUP_STATUS_CALL` (actions/derive.ts). -/
def PICKUP_STATUS_CALL : RulePick :=
  { ruleId := "PICKUP_STATUS_CALL"
    priority := 1
    title := fun lane => "Call carrier: confirm pickup status" ++ laneSuffix lane
    detail := some (fun _ => "Confirm arrival, check-in, and pickup ETA.")
    actionType := "CALL"
    href := fun ctx => telHref (nullish ctx.carrierPhone ctx.driverPhone)
    dueAtISO := some (fun ex => ex.dueAtISO) }

/-- `RULES.PICKUP_WINDOW_CALL` (actions/derive.ts). -/
def PICKUP_WINDOW_CALL : RulePick :=
  { ruleId := "PICKUP_WINDOW_CALL"
    priority := 2
    title := fun lane => "Call carrier: pickup window soon" ++ laneSuffix lane
    detail := some (fun _ => "Confirm they will make the pickup window.")
    actionType := "CALL"
    href := fun ctx => telHref (nullish ctx.carrierPhone ctx.driverPhone)
    dueAtISO := some (fun ex => ex.dueAtISO) }

/-- `RULES.DELIVERY_ETA_TEXT` (actions/derive.ts). -/
def DELIVERY_ETA_TEXT : RulePick :=
  { ruleId := "DELIVERY_ETA_TEXT"
    priority := 1
    title := fun lane => "Text carrier: delivery ETA update" ++ laneSuffix lane
    detail := some (fun _ => "Get ETA and update consignee if needed.")
    actionType := "TEXT"
    href := fun ctx =>
      smsHref (nullish ctx.carrierPhone ctx.driverPhone)
        (some "Please confirm updated delivery ETA. Thanks.")
    dueAtISO := some (fun ex => ex.dueAtISO) }

/-- `RULES.DELIVERY_WINDOW_TEXT` (actions/derive.ts). -/
def DELIVERY_WINDOW_TEXT : RulePick :=
  { ruleId := "DELIVERY_WINDOW_TEXT"
    priority := 2
    title := fun lane => "Text carrier: delivery window soon" ++ laneSuffix lane
    detail := some (fun _ => "Confirm ETA to meet delivery window.")
    actionType := "TEXT"
    href := fun ctx =>
      smsHref (nullish ctx.carrierPhone ctx.driverPhone)
        (some "Delivery window is coming up—please confirm ETA. Thanks.")
    dueAtISO := some (fun ex => ex.dueAtISO) }

/-- One entry of the precedence table. -/
structure PrecedenceEntry where
  codes : List String
  rule : RulePick

/-- `EXCEPTION_PRECEDENCE` (actions/derive.ts): the ordered table. -/
def EXCEPTION_PRECEDENCE : List PrecedenceEntry :=
  [⟨["NO_GPS"], NO_GPS_CALL⟩,
   ⟨["GPS_STALE_RED"], GPS_STALE_TEXT⟩,
   ⟨["PICKUP_LATE"], PICKUP_STATUS_CALL⟩,
   ⟨["DELIVERY_LATE"], DELIVERY_ETA_TEXT⟩,
   ⟨["PICKUP_WINDOW_SOON"], PICKUP_WINDOW_CALL⟩,
   ⟨["DELIVERY_WINDOW_SOON"], DELIVERY_WINDOW_TEXT⟩]

/-- `mkId` (actions/derive.ts): the stable action id. -/
def mkId (loadId ruleId : String) : String :=
  loadId ++ "__" ++ ruleId

/-- The precedence walk of `deriveActions`: first table entry with a matching
exception, paired with the first matching exception. -/
def findPrecedence (entries : List PrecedenceEntry) (exceptions : List ExceptionLike) :
    Option (RulePick × ExceptionLike) :=
  match entries with
  | [] => none
  | p :: rest =>
    match exceptions.find? (fun e => p.codes.contains e.code) with
    | some m => some (p.rule, m)
    | none => findPrecedence rest exceptions

/-- The per-load body of the `deriveActions` loop: at most one action. -/
def pickActionForLoad (l : ActionDeriveLoad) (createdAtISO : String) : Option BrokerAction :=
  if l.exceptions.isEmpty then none
  else
    match findPrecedence EXCEPTION_PRECEDENCE l.exceptions with
    | none => none
    | some (rule, ex) =>
      let dueAtISO := match rule.dueAtISO with
        | some f => f ex
        | none => ex.dueAtISO
      some
        { id := mkId l.loadId rule.ruleId
          loadId := l.loadId
          title := rule.title l.lane
          detail := rule.detail.map (fun f => f l.lane)
          actionType := rule.actionType
          href := rule.href ⟨l.carrierPhone, l.driverPhone, l.pickupAddress, l.deliveryAddress⟩
          priority := rule.priority
          dueAtISO := dueAtISO
          createdAtISO := createdAtISO
          status := .OPEN
          ruleId := rule.ruleId }

/-- The final comparator of `deriveActions`: priority ascending, then
`dueAtISO ?? ""` lexicographic, then `createdAtISO` lexicographic. -/
def cmpActions (a b : BrokerAction) : Int :=
  if a.priority ≠ b.priority then (a.priority : Int) - (b.priority : Int)
  else
    let ad := a.dueAtISO.getD ""
    let bd := b.dueAtISO.getD ""
    if ad ≠ bd then (if ad < bd then -1 else 1)
    else if a.createdAtISO < b.createdAtISO then -1
    else if b.createdAtISO < a.createdAtISO then 1
    else 0

/-- `deriveActions` (actions/derive.ts). -/
def deriveActions (loads : List ActionDeriveLoad) (nowISO : String) : List BrokerAction :=
  (loads.filterMap (fun l => pickActionForLoad l nowISO)).mergeSort
    (fun a b => cmpActions a b ≤ 0)

/-- Left-pad a numeral with zeros. -/
def zfill (width : Nat) (n : Nat) : String :=
  let s := toString n
  if s.length < width then (List.replicate (width - s.length) '0').asString ++ s else s

/-- Civil date from days since the Unix epoch (proleptic Gregorian). -/
def civilFromDays (days : Int) : Int × Nat × Nat :=
  let z := days + 719468
  let era := (if z ≥ 0 then z else z - 146096) / 146097
  let doe := (z - era * 146097).toNat
  let yoe := (doe - doe / 1460 + doe / 36524 - doe / 146096) / 365
  let y : Int := (yoe : Int) + era * 400
  let doy := doe - (365 * yoe + yoe / 4 - yoe / 100)
  let mp := (5 * doy + 2) / 153
  let d := doy - (153 * mp + 2) / 5 + 1
  let m := if mp < 10 then mp + 3 else mp - 9
  (if m ≤ 2 then y + 1 else y, m, d)

/-- Days since the Unix epoch from a civil date (proleptic Gregorian). -/
def daysFromCivil (year : Int) (month day : Nat) : Int :=
  let y := if month ≤ 2 then year - 1 else year
  let era := (if y ≥ 0 then y else y - 399) / 400
  let yoe := (y - era * 400).toNat
  let mp := if month > 2 then month - 3 else month + 9
  let doy := (153 * mp + 2) / 5 + day - 1
  let doe := yoe * 365 + yoe / 4 - yoe / 100 + doy
  era * 146097 + (doe : Int) - 719468

/-- The year field of `Date.prototype.toISOString`: four digits, or a
sign-prefixed six-digit expanded year outside 0–9999. -/
def isoYear (y : Int) : String :=
  if 0 ≤ y ∧ y ≤ 9999 then zfill 4 y.toNat
  else if y > 9999 then "+" ++ zfill 6 y.toNat
  else "-" ++ zfill 6 (-y).toNat

/-- Model of `Date.prototype.toISOString`: epoch ms to
`YYYY-MM-DDTHH:MM:SS.sssZ` (UTC). -/
def msToIso (t : Int) : String :=
  let msOfDay := (t % 86400000).toNat
  let days := (t - (t % 86400000)) / 86400000
  let ymd := civilFromDays days
  let hh := msOfDay / 3600000
  let mm := (msOfDay / 60000) % 60
  let ss := (msOfDay / 1000) % 60
  let mmm := msOfDay % 1000
  isoYear ymd.1 ++ "-" ++ zfill 2 ymd.2.1 ++ "-" ++ zfill 2 ymd.2.2
    ++ "T" ++ zfill 2 hh ++ ":" ++ zfill 2 mm ++ ":" ++ zfill 2 ss
    ++ "." ++ zfill 3 mmm ++ "Z"

/-- Decimal digits to a number; `none` on a non-digit or empty input. -/
def digitsToNat (cs : List Char) : Option Nat :=
  if cs.isEmpty || cs.any (fun c => !c.isDigit) then none
  else some (cs.foldl (fun acc c => acc * 10 + (c.toNat - 48)) 0)

/-- Model of `new Date(s).getTime()` on the canonical UTC timestamps this
application passes around (`toISOString` output, `YYYY-MM-DDTHH:MM:SS.sssZ`);
`none` models an Invalid Date (`NaN`). -/
def isoToMs (s : String) : Option Int :=
  match s.toList with
  | [y1, y2, y3, y4, '-', o1, o2, '-', d1, d2, 'T',
     h1, h2, ':', n1, n2, ':', s1, s2, '.', f1, f2, f3, 'Z'] => do
    let y ← digitsToNat [y1, y2, y3, y4]
    let mo ← digitsToNat [o1, o2]
    let da ← digitsToNat [d1, d2]
    let hh ← digitsToNat [h1, h2]
    let mi ← digitsToNat [n1, n2]
    let ss ← digitsToNat [s1, s2]
    let ms ← digitsToNat [f1, f2, f3]
    if 1 ≤ mo ∧ mo ≤ 12 ∧ 1 ≤ da ∧ da ≤ 31 ∧ hh ≤ 23 ∧ mi ≤ 59 ∧ ss ≤ 59 then
      some (daysFromCivil y mo da * 86400000
        + ((hh * 3600000 + mi * 60000 + ss * 1000 + ms : Nat) : Int))
    else none
  | _ => none

/-- `ActionStateEntry` (actionStateStore.ts). -/
structure ActionStateEntry where
  status : ActionStatus
  snoozeUntilISO : Option String
  updatedAtISO : String
deriving DecidableEq

/-- `ActionStateMap`: a JS object keyed by action id, as an association list. -/
abbrev ActionStateMap := List (String × ActionStateEntry)

/-- Property lookup on an action state map. -/
def stateLookup (m : ActionStateMap) (k : String) : Option ActionStateEntry :=
  (m.find? (fun p => p.1 == k)).map (fun p => p.2)

/-- Property assignment on an action state map: overwrite the first existing
binding in place, else append (JS object assignment keeps the key's position). -/
def stateSet : ActionStateMap → String → ActionStateEntry → ActionStateMap
  | [], k, v => [(k, v)]
  | q :: t, k, v => if q.1 == k then (k, v) :: t else q :: stateSet t k v

/-- The mapping loop of `overlayActionState`, threading the pruned map through
because a snooze expiry rewrites it mid-loop. -/
def overlayGo (nowISO : String) :
    List BrokerAction → ActionStateMap → List BrokerAction × ActionStateMap
  | [], st => ([], st)
  | a :: rest, st =>
    match stateLookup st a.id with
    | none =>
      let r := overlayGo nowISO rest st
      (a :: r.1, r.2)
    | some entry =>
      if entry.status = .SNOOZED then
        match entry.snoozeUntilISO with
        | some u =>
          if u ≠ "" ∧ u ≤ nowISO then
            let reopened : ActionStateEntry := ⟨.OPEN, none, nowISO⟩
            let r := overlayGo nowISO rest (stateSet st a.id reopened)
            ({ a with status := reopened.status } :: r.1, r.2)
          else
            let r := overlayGo nowISO rest st
            ({ a with status := entry.status } :: r.1, r.2)
        | none =>
          let r := overlayGo nowISO rest st
          ({ a with status := entry.status } :: r.1, r.2)
      else
        let r := overlayGo nowISO rest st
        ({ a with status := entry.status } :: r.1, r.2)

/-- The result of `overlayActionState`: the overlaid actions and the persisted map. -/
structure OverlayResult where
  actions : List BrokerAction
  state : ActionStateMap
deriving DecidableEq

/-- `overlayActionState` (actionStateStore.ts). The loaded persisted map is an
explicit argument; the returned `state` is what the function persists. -/
def overlayActionState (persisted : ActionStateMap) (derived : List BrokerAction)
    (nowISO : String) : OverlayResult :=
  let derivedIds := derived.map (fun a => a.id)
  let pruned := persisted.filter (fun p => derivedIds.contains p.1)
  let r := overlayGo nowISO derived pruned
  ⟨r.1, r.2⟩

/-- `setActionDone` (actionStateStore.ts), on the loaded map. -/
def setActionDone (persisted : ActionStateMap) (actionId nowISO : String) : ActionStateMap :=
  stateSet persisted actionId ⟨.DONE, none, nowISO⟩

/-- `snoozeAction30m` (actionStateStore.ts): 30 minutes of epoch-millisecond
arithmetic on the instant. `none` models the `RangeError` that
`toISOString` raises on an Invalid Date. -/
def snoozeAction30m (persisted : ActionStateMap) (actionId nowISO : String) :
    Option ActionStateMap :=
  match isoToMs nowISO with
  | none => none
  | some t =>
    some (stateSet persisted actionId
      ⟨.SNOOZED, some (msToIso (t + 30 * 60 * 1000)), nowISO⟩)

/-- `reopenAction` (actionStateStore.ts), on the loaded map. -/
def reopenAction (persisted : ActionStateMap) (actionId nowISO : String) : ActionStateMap :=
  stateSet persisted actionId ⟨.OPEN, none, nowISO⟩

/-- An untyped JavaScript JSON value. The TypeScript load functions cast the
parse result without validating its inner shape, so the persistence layer is
modelled at this level. Numbers keep their lexeme; no arithmetic touches them. -/
inductive Json
  | null
  | bool (b : Bool)
  | num (raw : String)
  | str (s : String)
  | arr (elems : List Json)
  | obj (fields : List (String × Json))

/-- JSON insignificant whitespace. -/
def jsonWs (cs : List Char) : List Char :=
  cs.dropWhile (fun c => c == ' ' || c == '\t' || c == '\n' || c == '\r')

/-- Hexadecimal digit test. -/
def isHexDigitChar (c : Char) : Bool :=
  c.isDigit || ('a' ≤ c ∧ c ≤ 'f') || ('A' ≤ c ∧ c ≤ 'F')

/-- Value of a hexadecimal digit. -/
def hexVal (c : Char) : Nat :=
  if c.isDigit then c.toNat - 48
  else if 'a' ≤ c ∧ c ≤ 'f' then c.toNat - 87
  else c.toNat - 55

/-- Four hexadecimal digits of a `\u` escape. -/
def parseHex4 (cs : List Char) : Option (Nat × List Char) :=
  match cs with
  | a :: b :: c :: d :: rest =>
    if isHexDigitChar a && isHexDigitChar b && isHexDigitChar c && isHexDigitChar d then
      some (hexVal a * 4096 + hexVal b * 256 + hexVal c * 16 + hexVal d, rest)
    else none
  | _ => none

/-- JSON string body after the opening quote, with escapes. -/
def parseJsonStr (fuel : Nat) (cs : List Char) (acc : List Char) :
    Option (String × List Char) :=
  match fuel, cs with
  | 0, _ => none
  | _, [] => none
  | f + 1, c :: rest =>
    if c == '"' then some (acc.reverse.asString, rest)
    else if c == '\\' then
      match rest with
      | [] => none
      | e :: rest2 =>
        if e == '"' then parseJsonStr f rest2 ('"' :: acc)
        else if e == '\\' then parseJsonStr f rest2 ('\\' :: acc)
        else if e == '/' then parseJsonStr f rest2 ('/' :: acc)
        else if e == 'b' then parseJsonStr f rest2 (Char.ofNat 8 :: acc)
        else if e == 'f' then parseJsonStr f rest2 (Char.ofNat 12 :: acc)
        else if e == 'n' then parseJsonStr f rest2 ('\n' :: acc)
        else if e == 'r' then parseJsonStr f rest2 (Char.ofNat 13 :: acc)
        else if e == 't' then parseJsonStr f rest2 ('\t' :: acc)
        else if e == 'u' then
          match parseHex4 rest2 with
          | none => none
          | some (n, rest3) => parseJsonStr f rest3 (Char.ofNat n :: acc)
        else none
    else if c.toNat < 32 then none
    else parseJsonStr f rest (c :: acc)

/-- Split off leading decimal digits. -/
def spanDigits (cs : List Char) : List Char × List Char :=
  (cs.takeWhile Char.isDigit, cs.dropWhile Char.isDigit)

/-- JSON number lexeme. -/
def parseJsonNum (cs : List Char) : Option (String × List Char) :=
  let signed := match cs with
    | '-' :: rest => (['-'], rest)
    | _ => (([] : List Char), cs)
  let intSplit := spanDigits signed.2
  if intSplit.1.isEmpty then none
  else if 1 < intSplit.1.length ∧ intSplit.1.head? = some '0' then none
  else
    let fracRes : Option (List Char × List Char) :=
      match intSplit.2 with
      | '.' :: rest =>
        let ds := spanDigits rest
        if ds.1.isEmpty then none else some ('.' :: ds.1, ds.2)
      | _ => some ([], intSplit.2)
    match fracRes with
    | none => none
    | some (fracPart, cs3) =>
      let expRes : Option (List Char × List Char) :=
        match cs3 with
        | e :: rest =>
          if e == 'e' || e == 'E' then
            let sgned := match rest with
              | '+' :: r => (['+'], r)
              | '-' :: r => (['-'], r)
              | _ => (([] : List Char), rest)
            let ds := spanDigits sgned.2
            if ds.1.isEmpty then none else some (e :: (sgned.1 ++ ds.1), ds.2)
          else some ([], cs3)
        | [] => some ([], cs3)
      match expRes with
      | none => none
      | some (expPart, cs4) =>
        some ((signed.1 ++ intSplit.1 ++ fracPart ++ expPart).asString, cs4)

mutual

/-- JSON value parser (fuel-indexed recursive descent). -/
def parseJsonValue : Nat → List Char → Option (Json × List Char)
  | 0, _ => none
  | fuel + 1, cs =>
    let cs := jsonWs cs
    match cs with
    | [] => none
    | c :: rest =>
      if c == '{' then
        match jsonWs rest with
        | '}' :: rest2 => some (.obj [], rest2)
        | cs2 => parseJsonObj fuel cs2 []
      else if c == '[' then
        match jsonWs rest with
        | ']' :: rest2 => some (.arr [], rest2)
        | cs2 => parseJsonArr fuel cs2 []
      else if c == '"' then
        match parseJsonStr (rest.length + 1) rest [] with
        | none => none
        | some (s, rest2) => some (.str s, rest2)
      else if c == 't' then
        match cs with
        | 't' :: 'r' :: 'u' :: 'e' :: rest2 => some (.bool true, rest2)
        | _ => none
      else if c == 'f' then
        match cs with
        | 'f' :: 'a' :: 'l' :: 's' :: 'e' :: rest2 => some (.bool false, rest2)
        | _ => none
      else if c == 'n' then
        match cs with
        | 'n' :: 'u' :: 'l' :: 'l' :: rest2 => some (.null, rest2)
        | _ => none
      else
        match parseJsonNum cs with
        | none => none
        | some (s, rest2) => some (.num s, rest2)

/-- Array items after `[`, at least one element. -/
def parseJsonArr : Nat → List Char → List Json → Option (Json × List Char)
  | 0, _, _ => none
  | fuel + 1, cs, acc =>
    match parseJsonValue fuel cs with
    | none => none
    | some (v, rest) =>
      match jsonWs rest with
      | ',' :: rest2 => parseJsonArr fuel rest2 (acc ++ [v])
      | ']' :: rest2 => some (.arr (acc ++ [v]), rest2)
      | _ => none

/-- Object members after `{`, at least one member. -/
def parseJsonObj : Nat → List Char → List (String × Json) → Option (Json × List Char)
  | 0, _, _ => none
  | fuel + 1, cs, acc =>
    match jsonWs cs with
    | '"' :: rest =>
      match parseJsonStr (rest.length + 1) rest [] with
      | none => none
      | some (k, rest2) =>
        match jsonWs rest2 with
        | ':' :: rest3 =>
          match parseJsonValue fuel rest3 with
          | none => none
          | some (v, rest4) =>
            match jsonWs rest4 with
            | ',' :: rest5 => parseJsonObj fuel rest5 (acc ++ [(k, v)])
            | '}' :: rest5 => some (.obj (acc ++ [(k, v)]), rest5)
            | _ => none
        | _ => none
    | _ => none

end

/-- Model of `JSON.parse`: `none` is a thrown `SyntaxError`. -/
def jsonParse (s : String) : Option Json :=
  match parseJsonValue (s.length + 2) s.toList with
  | none => none
  | some (v, rest) => if (jsonWs rest).isEmpty then some v else none

/-- The truthy-object test of the load functions:
`parsed && typeof parsed === "object"` holds of objects and arrays only. -/
def isTruthyObject (v : Json) : Bool :=
  match v with
  | .obj _ => true
  | .arr _ => true
  | _ => false

/-- `loadSnapshots` (mockLoads.ts): the whole read is inside `try`; a thrown
read (`.error`), a missing or empty value, unparsable JSON, and a non-object
all degrade to the empty map. The parsed value itself is returned otherwise,
with no validation of its inner shape. -/
def loadSnapshots (stored : Except Unit (Option String)) : Json :=
  match stored with
  | .error _ => .obj []
  | .ok none => .obj []
  | .ok (some raw) =>
    if raw = "" then .obj []
    else
      match jsonParse raw with
      | none => .obj []
      | some parsed => if isTruthyObject parsed then parsed else .obj []

/-- `saveSnapshots` (mockLoads.ts): `try { setItem } catch { ignore }`. The
collaborator's write outcome is the argument; the function returns normally
either way. -/
def saveSnapshots (writeResult : Except Unit Unit) : Unit :=
  match writeResult with
  | .ok _ => ()
  | .error _ => ()

/-- `safeParse` (actionStateStore.ts): same degradation as `loadSnapshots`,
but only around `JSON.parse` — the argument is the already-read raw value. -/
def safeParse (json : Option String) : Json :=
  match json with
  | none => .obj []
  | some raw =>
    if raw = "" then .obj []
    else
      match jsonParse raw with
      | none => .obj []
      | some v => if isTruthyObject v then v else .obj []

/-- `loadActionState` (actionStateStore.ts): `safeParse` of the stored value.
The read itself is not wrapped in `try`, so a thrown read propagates. -/
def loadActionState (stored : Except Unit (Option String)) : Except Unit Json :=
  match stored with
  | .error e => .error e
  | .ok v => .ok (safeParse v)

/-- `safeParseArray` (actionStateStore.ts): empty array unless the parse
succeeds and yields an array. -/
def safeParseArray (json : Option String) : Json :=
  match json with
  | none => .arr []
  | some raw =>
    if raw = "" then .arr []
    else
      match jsonParse raw with
      | none => .arr []
      | some v =>
        match v with
        | .arr _ => v
        | _ => .arr []

/-- `loadContactLog` (actionStateStore.ts): `safeParseArray` of the stored
value; the read itself is unguarded. -/
def loadContactLog (stored : Except Unit (Option String)) : Except Unit Json :=
  match stored with
  | .error e => .error e
  | .ok v => .ok (safeParseArray v)

/-! ### Sample data for concrete instantiations -/

/-- A consistent `ISOTime` at a given epoch millisecond. -/
def isoAt (ms : Int) : ISOTime :=
  ⟨msToIso ms, some ms⟩

/-- A quiet sample load, used to build concrete instances. -/
def sampleLoad : Load :=
  { id := "L-1"
    status := .green
    riskReason := none
    originCityState := "Portland, OR"
    destCityState := "Boise, ID"
    pickupWindowStartISO := isoAt 3600000
    pickupWindowEndISO := isoAt 7200000
    deliveryWindowStartISO := isoAt 36000000
    deliveryWindowEndISO := isoAt 50400000
    carrierName := "Cascadia Haul Co."
    carrierPhone := "+15035550111"
    lastGpsMinutesAgo := some 10
    nextAction := "Monitor." }

/-- A load that is both pickup-late and without GPS. -/
def lateNoGpsLoad : Load :=
  { sampleLoad with
    lastGpsMinutesAgo := none
    pickupWindowStartISO := isoAt (-18000000)
    pickupWindowEndISO := isoAt (-7200000) }

/-! ### Facts about the individual rules -/

theorem ruleNoGps_fields {load : Load} {ctx : RuleCtx} {e : Exception}
    (h : ruleNoGps load ctx = some e) :
    e.severity = .risk ∧ e.status = .red ∧ e.code = "NO_GPS" := by
  unfold ruleNoGps at h
  cases hg : load.lastGpsMinutesAgo with
  | some m => rw [hg] at h; exact absurd h (by simp)
  | none =>
    rw [hg] at h
    cases h
    exact ⟨rfl, rfl, rfl⟩

theorem ruleGpsStale_fields {load : Load} {ctx : RuleCtx} {e : Exception}
    (h : ruleGpsStale load ctx = some e) :
    e.code = "GPS_STALE" ∧
      ((e.severity = .watch ∧ e.status = .yellow) ∨ (e.severity = .risk ∧ e.status = .red)) := by
  unfold ruleGpsStale at h
  split at h
  · exact absurd h (by simp)
  · split at h
    · cases h
      exact ⟨rfl, Or.inl ⟨rfl, rfl⟩⟩
    · split at h
      · cases h
        exact ⟨rfl, Or.inr ⟨rfl, rfl⟩⟩
      · exact absurd h (by simp)

theorem rulePickupLate_fields {load : Load} {ctx : RuleCtx} {e : Exception}
    (h : rulePickupLate load ctx = some e) :
    e.severity = .risk ∧ e.status = .red ∧ e.code = "PICKUP_LATE" := by
  unfold rulePickupLate at h
  by_cases h1 : load.pickupWindowEndISO.raw = ""
  · rw [if_pos h1] at h; exact absurd h (by simp)
  · rw [if_neg h1] at h
    by_cases h2 : isLate ctx.now load.pickupWindowEndISO
    · rw [if_pos h2] at h
      cases h
      exact ⟨rfl, rfl, rfl⟩
    · rw [if_neg h2] at h; exact absurd h (by simp)

theorem ruleDeliveryLate_fields {load : Load} {ctx : RuleCtx} {e : Exception}
    (h : ruleDeliveryLate load ctx = some e) :
    e.severity = .risk ∧ e.status = .red ∧ e.code = "DELIVERY_LATE" := by
  unfold ruleDeliveryLate at h
  by_cases h1 : load.deliveryWindowEndISO.raw = ""
  · rw [if_pos h1] at h; exact absurd h (by simp)
  · rw [if_neg h1] at h
    by_cases h2 : isLate ctx.now load.deliveryWindowEndISO
    · rw [if_pos h2] at h
      cases h
      exact ⟨rfl, rfl, rfl⟩
    · rw [if_neg h2] at h; exact absurd h (by simp)

theorem rulePickupWindowSoon_fields {load : Load} {ctx : RuleCtx} {e : Exception}
    (h : rulePickupWindowSoon load ctx = some e) :
    e.severity = .watch ∧ e.status = .yellow ∧ e.code = "PICKUP_WINDOW_SOON" := by
  unfold rulePickupWindowSoon at h
  by_cases h1 : load.pickupWindowEndISO.raw ≠ "" ∧ isLate ctx.now load.pickupWindowEndISO
  · rw [if_pos h1] at h; exact absurd h (by simp)
  · rw [if_neg h1] at h
    by_cases h2 : load.pickupWindowStartISO.raw = ""
    · rw [if_pos h2] at h; exact absurd h (by simp)
    · rw [if_neg h2] at h
      by_cases h3 : !startsWithin ctx.now load.pickupWindowStartISO (hoursMs 2)
      · rw [if_pos h3] at h; exact absurd h (by simp)
      · rw [if_neg h3] at h
        cases h
        exact ⟨rfl, rfl, rfl⟩

theorem ruleDeliveryWindowSoon_fields {load : Load} {ctx : RuleCtx} {e : Exception}
    (h : ruleDeliveryWindowSoon load ctx = some e) :
    e.severity = .watch ∧ e.status = .yellow ∧ e.code = "DELIVERY_WINDOW_SOON" := by
  unfold ruleDeliveryWindowSoon at h
  by_cases h1 : load.deliveryWindowEndISO.raw ≠ "" ∧ isLate ctx.now load.deliveryWindowEndISO
  · rw [if_pos h1] at h; exact absurd h (by simp)
  · rw [if_neg h1] at h
    by_cases h2 : load.deliveryWindowStartISO.raw = ""
    · rw [if_pos h2] at h; exact absurd h (by simp)
    · rw [if_neg h2] at h
      by_cases h3 : !startsWithin ctx.now load.deliveryWindowStartISO (hoursMs 4)
      · rw [if_pos h3] at h; exact absurd h (by simp)
      · rw [if_neg h3] at h
        cases h
        exact ⟨rfl, rfl, rfl⟩

/-- C3: `ruleNoGps` produces a risk/red exception if and only if
`lastGpsMinutesAgo` is null; `ruleGpsStale` fires only when GPS exists,
producing watch/yellow exactly when `60 ≤ m ≤ 120`, risk/red exactly when
`m > 120`, and no exception when `m < 60` (so `m = 60` and `m = 120` are
watch/yellow, `m = 121` is risk/red, `m = 59` yields no GPS exception). -/
theorem c3_gps_rule_boundaries (load : Load) (ctx : RuleCtx) :
    ((ruleNoGps load ctx).isSome ↔ load.lastGpsMinutesAgo = none) ∧
    (load.lastGpsMinutesAgo = none →
      ruleNoGps load ctx = some
        { code := "NO_GPS", severity := .risk, status := .red, title := "No GPS",
          detail := "No GPS data received for this load.",
          nextAction := "Contact driver/carrier to restore tracking immediately.",
          score := SCORES_NO_GPS }) ∧
    (load.lastGpsMinutesAgo = none → ruleGpsStale load ctx = none) ∧
    (∀ m, load.lastGpsMinutesAgo = some m →
      (60 ≤ m ∧ m ≤ 120 →
        ruleGpsStale load ctx = some
          { code := "GPS_STALE", severity := .watch, status := .yellow,
            title := "GPS stale",
            detail := "GPS last updated " ++ toString m ++ " minutes ago.",
            nextAction := "Ping driver/carrier for a fresh location update.",
            score := SCORES_GPS_STALE_WATCH }) ∧
      (120 < m →
        ruleGpsStale load ctx = some
          { code := "GPS_STALE", severity := .risk, status := .red,
            title := "GPS very stale",
            detail := "GPS last updated " ++ toString m ++ " minutes ago.",
            nextAction := "Call driver/carrier—confirm location and ETA now.",
            score := SCORES_GPS_STALE_RISK }) ∧
      (m < 60 → ruleGpsStale load ctx = none)) := by
  refine ⟨?_, ?_, ?_, ?_⟩
  · cases h : load.lastGpsMinutesAgo <;> simp [ruleNoGps, h]
  · intro h
    simp [ruleNoGps, h]
  · intro h
    simp [ruleGpsStale, h]
  · intro m hm
    refine ⟨fun h1 => ?_, fun h2 => ?_, fun h3 => ?_⟩
    · simp [ruleGpsStale, hm, h1.1, h1.2]
    · have ha : ¬(60 ≤ m ∧ m ≤ 120) := by omega
      simp [ruleGpsStale, hm, ha, h2]
    · have ha : ¬(60 ≤ m ∧ m ≤ 120) := by omega
      have hb : ¬(120 < m) := by omega
      simp [ruleGpsStale, hm, ha, hb]

/-- Witness for C3 at the boundary `m = 60`: the GPS_STALE rule yields the
watch/yellow exception. -/
theorem c3_gps_rule_boundaries_witness :
    ruleGpsStale { sampleLoad with lastGpsMinutesAgo := some 60 } ⟨0⟩ = some
      { code := "GPS_STALE", severity := .watch, status := .yellow,
        title := "GPS stale",
        detail := "GPS last updated " ++ toString 60 ++ " minutes ago.",
        nextAction := "Ping driver/carrier for a fresh location update.",
        score := SCORES_GPS_STALE_WATCH } :=
  (((c3_gps_rule_boundaries { sampleLoad with lastGpsMinutesAgo := some 60 }
    ⟨0⟩).2.2.2 60 rfl).1) (by decide)

theorem startsWithin_iff (nowMs : Int) (t : ISOTime) (w : Int) :
    startsWithin nowMs t w = true ↔
      ∃ s, parseISOToMs t = some s ∧ nowMs < s ∧ s - nowMs ≤ w := by
  unfold startsWithin
  cases h : parseISOToMs t with
  | none => simp [h]
  | some s =>
    simp only [h]
    split_ifs with hge
    · simp only [Bool.false_eq_true, false_iff]
      rintro ⟨s', hs', h1, h2⟩
      cases hs'
      omega
    · simp only [decide_eq_true_eq]
      constructor
      · intro hle
        exact ⟨s, rfl, by omega, hle⟩
      · rintro ⟨s', hs', h1, h2⟩
        cases hs'
        omega

theorem rulePickupLate_none_iff (load : Load) (ctx : RuleCtx) :
    rulePickupLate load ctx = none ↔
      ¬(load.pickupWindowEndISO.raw ≠ "" ∧ isLate ctx.now load.pickupWindowEndISO = true) := by
  unfold rulePickupLate
  split_ifs with h1 h2 <;> simp_all

theorem ruleDeliveryLate_none_iff (load : Load) (ctx : RuleCtx) :
    ruleDeliveryLate load ctx = none ↔
      ¬(load.deliveryWindowEndISO.raw ≠ "" ∧ isLate ctx.now load.deliveryWindowEndISO = true) := by
  unfold ruleDeliveryLate
  split_ifs with h1 h2 <;> simp_all

/-- C8: `rulePickupWindowSoon` fires iff the load is not already pickup-late,
a pickup window start exists, and the parsed start satisfies `now < start` and
`start - now ≤ 2` hours in ms (open lower bound, closed upper bound);
`ruleDeliveryWindowSoon` is the same with 4 hours against the delivery window;
an unparsable start (coerced to `+Infinity`) never fires either rule. -/
theorem c8_window_soon_rules (load : Load) (ctx : RuleCtx) :
    ((rulePickupWindowSoon load ctx).isSome ↔
      (rulePickupLate load ctx = none ∧ load.pickupWindowStartISO.raw ≠ "" ∧
        ∃ s, parseISOToMs load.pickupWindowStartISO = some s ∧
          ctx.now < s ∧ s - ctx.now ≤ 7200000)) ∧
    ((ruleDeliveryWindowSoon load ctx).isSome ↔
      (ruleDeliveryLate load ctx = none ∧ load.deliveryWindowStartISO.raw ≠ "" ∧
        ∃ s, parseISOToMs load.deliveryWindowStartISO = some s ∧
          ctx.now < s ∧ s - ctx.now ≤ 14400000)) ∧
    (parseISOToMs load.pickupWindowStartISO = none →
      rulePickupWindowSoon load ctx = none) ∧
    (parseISOToMs load.deliveryWindowStartISO = none →
      ruleDeliveryWindowSoon load ctx = none) := by
  have hp2 : hoursMs 2 = 7200000 := by norm_num [hoursMs]
  have hp4 : hoursMs 4 = 14400000 := by norm_num [hoursMs]
  refine ⟨?_, ?_, ?_, ?_⟩
  · unfold rulePickupWindowSoon
    by_cases hA : load.pickupWindowEndISO.raw ≠ "" ∧ isLate ctx.now load.pickupWindowEndISO = true
    · rw [if_pos hA]
      simp only [Option.isSome_none, Bool.false_eq_true, false_iff]
      rintro ⟨hlate, -⟩
      exact (rulePickupLate_none_iff load ctx).mp hlate hA
    · rw [if_neg hA]
      have hPL : rulePickupLate load ctx = none := (rulePickupLate_none_iff load ctx).mpr hA
      by_cases hB : load.pickupWindowStartISO.raw = ""
      · rw [if_pos hB]
        simp [hB]
      · rw [if_neg hB]
        by_cases hC : startsWithin ctx.now load.pickupWindowStartISO (hoursMs 2) = true
        · rw [if_neg (by simp [hC])]
          simp only [Option.isSome_some, true_iff]
          exact ⟨hPL, hB, by rw [← hp2]; exact (startsWithin_iff _ _ _).mp hC⟩
        · have hCf : startsWithin ctx.now load.pickupWindowStartISO (hoursMs 2) = false :=
            Bool.eq_false_iff.mpr hC
          rw [hCf]
          simp only [Bool.not_false, if_true, Option.isSome_none, Bool.false_eq_true, false_iff]
          rintro ⟨-, -, hex⟩
          exact hC ((startsWithin_iff _ _ _).mpr (by rw [hp2]; exact hex))
  · unfold ruleDeliveryWindowSoon
    by_cases hA : load.deliveryWindowEndISO.raw ≠ "" ∧ isLate ctx.now load.deliveryWindowEndISO = true
    · rw [if_pos hA]
      simp only [Option.isSome_none, Bool.false_eq_true, false_iff]
      rintro ⟨hlate, -⟩
      exact (ruleDeliveryLate_none_iff load ctx).mp hlate hA
    · rw [if_neg hA]
      have hDL : ruleDeliveryLate load ctx = none := (ruleDeliveryLate_none_iff load ctx).mpr hA
      by_cases hB : load.deliveryWindowStartISO.raw = ""
      · rw [if_pos hB]
        simp [hB]
      · rw [if_neg hB]
        by_cases hC : startsWithin ctx.now load.deliveryWindowStartISO (hoursMs 4) = true
        · rw [if_neg (by simp [hC])]
          simp only [Option.isSome_some, true_iff]
          exact ⟨hDL, hB, by rw [← hp4]; exact (startsWithin_iff _ _ _).mp hC⟩
        · have hCf : startsWithin ctx.now load.deliveryWindowStartISO (hoursMs 4) = false :=
            Bool.eq_false_iff.mpr hC
          rw [hCf]
          simp only [Bool.not_false, if_true, Option.isSome_none, Bool.false_eq_true, false_iff]
          rintro ⟨-, -, hex⟩
          exact hC ((startsWithin_iff _ _ _).mpr (by rw [hp4]; exact hex))
  · intro h
    unfold rulePickupWindowSoon
    split_ifs with h1 h2 h3 <;> try rfl
    exfalso
    have : startsWithin ctx.now load.pickupWindowStartISO (hoursMs 2) = true := by
      simpa using h3
    obtain ⟨s, hs, -, -⟩ := (startsWithin_iff _ _ _).mp this
    rw [h] at hs
    cases hs
  · intro h
    unfold ruleDeliveryWindowSoon
    split_ifs with h1 h2 h3 <;> try rfl
    exfalso
    have : startsWithin ctx.now load.deliveryWindowStartISO (hoursMs 4) = true := by
      simpa using h3
    obtain ⟨s, hs, -, -⟩ := (startsWithin_iff _ _ _).mp this
    rw [h] at hs
    cases hs

/-- Witness for C8: a pickup window starting in exactly two hours fires the
soon rule, by the closed upper bound. -/
theorem c8_window_soon_rules_witness :
    (rulePickupWindowSoon
      { sampleLoad with pickupWindowStartISO := isoAt 7200000 } ⟨0⟩).isSome = true :=
  ((c8_window_soon_rules { sampleLoad with pickupWindowStartISO := isoAt 7200000 }
      ⟨0⟩).1).mpr
    ⟨by decide, by decide, 7200000, by decide, by decide, by decide⟩

/-! ### The extended-timestamp order -/

theorem msLt_trans : ∀ x y z : Option Int, msLt x y = true → msLt y z = true → msLt x z = true := by
  intro x y z hxy hyz
  cases x <;> cases y <;> cases z <;> simp_all [msLt] <;> omega

theorem msLt_asymm : ∀ x y : Option Int, msLt x y = true → msLt y x = false := by
  intro x y hxy
  cases x <;> cases y <;> simp_all [msLt] <;> omega

theorem msLt_irrefl : ∀ x : Option Int, msLt x x = false := by
  intro x
  cases x <;> simp [msLt]

theorem msLt_trichotomy : ∀ x y : Option Int, msLt x y = true ∨ x = y ∨ msLt y x = true := by
  intro x y
  cases x <;> cases y <;> simp [msLt] <;> omega

/-! ### The load comparator as a lexicographic order -/

theorem loadLe_iff (a b : EvaluatedLoad) :
    loadLe a b = true ↔
      (statusRank a.computedStatus < statusRank b.computedStatus ∨
        (statusRank a.computedStatus = statusRank b.computedStatus ∧
          (topScoreWithinStatus b < topScoreWithinStatus a ∨
            (topScoreWithinStatus a = topScoreWithinStatus b ∧
              (msLt (relevantDeadlineMs a) (relevantDeadlineMs b) = true ∨
                (relevantDeadlineMs a = relevantDeadlineMs b ∧ a.id ≤ b.id)))))) := by
  unfold loadLe cmpLoads
  simp only [decide_eq_true_eq]
  by_cases h1 : statusRank a.computedStatus ≠ statusRank b.computedStatus
  · rw [if_pos h1]
    constructor
    · intro h
      exact Or.inl (by omega)
    · rintro (h | ⟨he, -⟩) <;> omega
  · rw [if_neg h1]
    push_neg at h1
    by_cases h2 : topScoreWithinStatus a ≠ topScoreWithinStatus b
    · rw [if_pos h2]
      constructor
      · intro h
        exact Or.inr ⟨h1, Or.inl (by omega)⟩
      · rintro (h | ⟨-, h | ⟨h, -⟩⟩) <;> omega
    · rw [if_neg h2]
      push_neg at h2
      by_cases h3 : relevantDeadlineMs a ≠ relevantDeadlineMs b
      · rw [if_pos h3]
        by_cases h4 : msLt (relevantDeadlineMs a) (relevantDeadlineMs b) = true
        · rw [if_pos h4]
          constructor
          · intro _
            exact Or.inr ⟨h1, Or.inr ⟨h2, Or.inl h4⟩⟩
          · intro _
            norm_num
        · rw [if_neg h4]
          constructor
          · intro h
            omega
          · rintro (h | ⟨-, h | ⟨-, h | ⟨he, -⟩⟩⟩)
            · omega
            · omega
            · exact absurd h h4
            · exact absurd he h3
      · rw [if_neg h3]
        push_neg at h3
        by_cases h5 : a.id < b.id
        · rw [if_pos h5]
          constructor
          · intro _
            exact Or.inr ⟨h1, Or.inr ⟨h2, Or.inr ⟨h3, le_of_lt h5⟩⟩⟩
          · intro _
            norm_num
        · rw [if_neg h5]
          by_cases h6 : b.id < a.id
          · rw [if_pos h6]
            constructor
            · intro h
              omega
            · rintro (h | ⟨-, h | ⟨-, h | ⟨-, hc⟩⟩⟩)
              · omega
              · omega
              · rw [h3] at h
                rw [msLt_irrefl] at h
                exact absurd h (by simp)
              · exact absurd hc (not_le.mpr h6)
          · rw [if_neg h6]
            constructor
            · intro _
              exact Or.inr ⟨h1, Or.inr ⟨h2, Or.inr ⟨h3, not_lt.mp h6⟩⟩⟩
            · intro _
              norm_num

theorem loadLe_trans : ∀ a b c : EvaluatedLoad, loadLe a b → loadLe b c → loadLe a c := by
  intro a b c hab hbc
  rw [loadLe_iff] at hab hbc ⊢
  rcases hab with h1 | ⟨e1, hs1⟩ <;> rcases hbc with h2 | ⟨e2, hs2⟩
  · exact Or.inl (by omega)
  · exact Or.inl (by omega)
  · exact Or.inl (by omega)
  · refine Or.inr ⟨by omega, ?_⟩
    rcases hs1 with h1 | ⟨s1, hd1⟩ <;> rcases hs2 with h2 | ⟨s2, hd2⟩
    · exact Or.inl (by omega)
    · exact Or.inl (by omega)
    · exact Or.inl (by omega)
    · refine Or.inr ⟨by omega, ?_⟩
      rcases hd1 with h1 | ⟨d1, i1⟩ <;> rcases hd2 with h2 | ⟨d2, i2⟩
      · exact Or.inl (msLt_trans _ _ _ h1 h2)
      · rw [← d2]
        exact Or.inl h1
      · rw [d1]
        exact Or.inl h2
      · exact Or.inr ⟨d1.trans d2, le_trans i1 i2⟩

theorem loadLe_total : ∀ a b : EvaluatedLoad, loadLe a b || loadLe b a := by
  intro a b
  rw [Bool.or_eq_true, loadLe_iff, loadLe_iff]
  rcases lt_trichotomy (statusRank a.computedStatus) (statusRank b.computedStatus) with h | h | h
  · exact Or.inl (Or.inl h)
  · rcases lt_trichotomy (topScoreWithinStatus a) (topScoreWithinStatus b) with h' | h' | h'
    · exact Or.inr (Or.inr ⟨h.symm, Or.inl h'⟩)
    · rcases msLt_trichotomy (relevantDeadlineMs a) (relevantDeadlineMs b) with hd | hd | hd
      · exact Or.inl (Or.inr ⟨h, Or.inr ⟨h', Or.inl hd⟩⟩)
      · rcases le_total a.id b.id with hi | hi
        · exact Or.inl (Or.inr ⟨h, Or.inr ⟨h', Or.inr ⟨hd, hi⟩⟩⟩)
        · exact Or.inr (Or.inr ⟨h.symm, Or.inr ⟨h'.symm, Or.inr ⟨hd.symm, hi⟩⟩⟩)
      · exact Or.inr (Or.inr ⟨h.symm, Or.inr ⟨h'.symm, Or.inl hd⟩⟩)
    · exact Or.inl (Or.inr ⟨h, Or.inl h'⟩)
  · exact Or.inr (Or.inl h)

/-- C5: `sortNeedsAttention` permutes its input into the order: status rank
(red, yellow, green) ascending; then highest matching-status exception score
descending; then the primary exception's relevant deadline ascending
(`+Infinity` for missing or unparsable); then load id ascending — so ties on
status, top score and deadline are broken by id. -/
theorem c5_sortNeedsAttention_spec (loads : List EvaluatedLoad) :
    (sortNeedsAttention loads).Perm loads ∧
    (sortNeedsAttention loads).Pairwise (fun a b =>
      statusRank a.computedStatus < statusRank b.computedStatus ∨
      (statusRank a.computedStatus = statusRank b.computedStatus ∧
        (topScoreWithinStatus b < topScoreWithinStatus a ∨
          (topScoreWithinStatus a = topScoreWithinStatus b ∧
            (msLt (relevantDeadlineMs a) (relevantDeadlineMs b) = true ∨
              (relevantDeadlineMs a = relevantDeadlineMs b ∧ a.id ≤ b.id)))))) ∧
    (∀ l : EvaluatedLoad, ∀ e, pickPrimaryException l = some e →
      relevantDeadlineMs l =
        if e.code = "PICKUP_LATE" then parseISOToMsOrInf l.pickupWindowEndISO
        else if e.code = "PICKUP_WINDOW_SOON" then parseISOToMsOrInf l.pickupWindowStartISO
        else if e.code = "DELIVERY_LATE" then parseISOToMsOrInf l.deliveryWindowEndISO
        else if e.code = "DELIVERY_WINDOW_SOON" then parseISOToMsOrInf l.deliveryWindowStartISO
        else if e.code = "NO_GPS" ∨ e.code = "GPS_STALE" then
          msMin (parseISOToMsOrInf l.pickupWindowStartISO)
            (msMin (parseISOToMsOrInf l.pickupWindowEndISO)
              (msMin (parseISOToMsOrInf l.deliveryWindowStartISO)
                (parseISOToMsOrInf l.deliveryWindowEndISO)))
        else none) ∧
    (∀ l : EvaluatedLoad, pickPrimaryException l = none →
      relevantDeadlineMs l = none) :=
  ⟨List.mergeSort_perm _ _,
    (List.sorted_mergeSort loadLe_trans loadLe_total _).imp
      (fun h => (loadLe_iff _ _).mp h),
    fun l e he => by rw [relevantDeadlineMs, he],
    fun l he => by rw [relevantDeadlineMs, he]⟩

/-- Witness for C5: on a no-GPS evaluated load the relevant deadline is the
earliest of the four window timestamps. -/
theorem c5_sortNeedsAttention_spec_witness :
    relevantDeadlineMs (evaluateLoad lateNoGpsLoad 0) = some (-18000000) :=
  Trans.trans
    ((c5_sortNeedsAttention_spec []).2.2.1 (evaluateLoad lateNoGpsLoad 0)
      ((evaluateLoad lateNoGpsLoad 0).exceptions.head?.getD
        ⟨"NO_GPS", .risk, .red, "", "", "", 0⟩)
      (by decide))
    (by decide)

/-! ### The notification differ -/

theorem shouldNotifyTransition_true_iff (p next : LoadStatus) :
    shouldNotifyTransition (some p) next = true ↔
      ((p = .green ∧ (next = .yellow ∨ next = .red)) ∨ (p = .yellow ∧ next = .red)) := by
  cases p <;> cases next <;> simp [shouldNotifyTransition, isNonGreen]

theorem shouldNotifyTransition_none (next : LoadStatus) :
    shouldNotifyTransition none next = false :=
  rfl

theorem snapLookup_nil (k : String) : snapLookup ([] : SnapshotMap) k = none := by
  simp [snapLookup]

theorem primaryNotification_loadId {e : EvaluatedLoad} {t : String} {n : Notification}
    (h : n ∈ primaryNotification e t) : n.loadId = e.id := by
  unfold primaryNotification at h
  cases hp : primaryExceptionCode e with
  | none =>
    rw [hp] at h
    exact absurd h (List.not_mem_nil n)
  | some code =>
    rw [hp] at h
    rcases List.mem_singleton.mp h with rfl
    rfl

theorem notifyForLoad_mem {prev : SnapshotMap} {t : String} {flag : Bool}
    {e : EvaluatedLoad} {n : Notification} (h : n ∈ notifyForLoad prev t flag e) :
    n.loadId = e.id ∧ ∃ ps, snapLookup prev e.id = some ps ∧
      (flag = false →
        ((ps.status = .green ∧ e.computedStatus ≠ .green) ∨
         (ps.status = .yellow ∧ e.computedStatus = .red))) := by
  unfold notifyForLoad at h
  dsimp only at h
  cases hk : snapLookup prev e.id with
  | none =>
    rw [hk] at h
    rw [Option.map_none', shouldNotifyTransition_none, Bool.false_and] at h
    rw [if_neg (by simp)] at h
    split at h
    · rw [codeChangeNotification] at h
      exact absurd h (List.not_mem_nil n)
    · exact absurd h (List.not_mem_nil n)
  | some ps =>
    rw [hk] at h
    rw [Option.map_some'] at h
    by_cases hT : (shouldNotifyTransition (some ps.status) (snapshotFromEvaluatedLoad e).status
        && isNonGreen (snapshotFromEvaluatedLoad e).status) = true
    · rw [if_pos hT] at h
      have hTr : shouldNotifyTransition (some ps.status) (snapshotFromEvaluatedLoad e).status
          = true := by
        simp only [Bool.and_eq_true] at hT
        exact hT.1
      rw [shouldNotifyTransition_true_iff] at hTr
      have hstat : (snapshotFromEvaluatedLoad e).status = e.computedStatus := rfl
      rw [hstat] at hTr
      have hcond : (ps.status = .green ∧ e.computedStatus ≠ .green) ∨
          (ps.status = .yellow ∧ e.computedStatus = .red) := by
        rcases hTr with ⟨h1, h2 | h2⟩ | ⟨h1, h2⟩
        · exact Or.inl ⟨h1, by rw [h2]; intro hx; cases hx⟩
        · exact Or.inl ⟨h1, by rw [h2]; intro hx; cases hx⟩
        · exact Or.inr ⟨h1, h2⟩
      exact ⟨primaryNotification_loadId h, ps, rfl, fun _ => hcond⟩
    · rw [if_neg hT] at h
      by_cases hF : flag = true
      · rw [if_pos hF] at h
        rw [codeChangeNotification] at h
        split at h
        · exact ⟨primaryNotification_loadId h, ps, rfl,
            fun hf => absurd hF (by rw [hf]; simp)⟩
        · exact absurd h (List.not_mem_nil n)
      · rw [if_neg hF] at h
        exact absurd h (List.not_mem_nil n)

theorem notifyForLoad_of_prev_none {prev : SnapshotMap} {t : String} {flag : Bool}
    {e : EvaluatedLoad} (hk : snapLookup prev e.id = none) :
    notifyForLoad prev t flag e = [] := by
  unfold notifyForLoad
  dsimp only
  rw [hk, Option.map_none', shouldNotifyTransition_none, Bool.false_and]
  rw [if_neg (by simp)]
  split
  · rw [codeChangeNotification]
  · rfl

theorem diffGo_fst (prev : SnapshotMap) (t : String) (flag : Bool) :
    ∀ (current : List EvaluatedLoad) (acc : List Notification) (next : SnapshotMap),
      (diffGo prev t flag current acc next).1
        = acc ++ current.flatMap (notifyForLoad prev t flag) := by
  intro current
  induction current with
  | nil =>
    intro acc next
    simp [diffGo]
  | cons e rest ih =>
    intro acc next
    rw [diffGo, ih]
    simp [List.append_assoc]

/-- C1: `diffNotifications` emits a notification for a load only if a previous
snapshot existed for that load id; with the code-change option off, only on a
green-to-yellow, green-to-red or yellow-to-red transition (so de-escalations
and same-status repeats emit nothing by the transition path); and with an
empty previous snapshot map, the notification list is empty for every input. -/
theorem c1_diffNotifications_transitions (prev : SnapshotMap)
    (current : List EvaluatedLoad) (createdAtISO : String)
    (options : NotificationDiffOptions) :
    (∀ n ∈ (diffNotifications prev current createdAtISO options).1,
      ∃ e ∈ current, n.loadId = e.id ∧ (snapLookup prev e.id).isSome) ∧
    (options.notifyOnCodeChange.getD false = false →
      ∀ n ∈ (diffNotifications prev current createdAtISO options).1,
        ∃ e ∈ current, ∃ ps, n.loadId = e.id ∧ snapLookup prev e.id = some ps ∧
          ((ps.status = .green ∧ e.computedStatus ≠ .green) ∨
           (ps.status = .yellow ∧ e.computedStatus = .red))) ∧
    (diffNotifications [] current createdAtISO options).1 = [] := by
  refine ⟨?_, ?_, ?_⟩
  · intro n hn
    rw [diffNotifications, diffGo_fst, List.nil_append, List.mem_flatMap] at hn
    obtain ⟨e, he, hne⟩ := hn
    obtain ⟨hid, ps, hps, -⟩ := notifyForLoad_mem hne
    exact ⟨e, he, hid, by rw [hps]; rfl⟩
  · intro hflag n hn
    rw [diffNotifications, hflag, diffGo_fst, List.nil_append, List.mem_flatMap] at hn
    obtain ⟨e, he, hne⟩ := hn
    obtain ⟨hid, ps, hps, hcond⟩ := notifyForLoad_mem hne
    exact ⟨e, he, ps, hid, hps, hcond rfl⟩
  · rw [diffNotifications, diffGo_fst, List.nil_append]
    rw [List.flatMap_eq_nil_iff]
    intro e _
    exact notifyForLoad_of_prev_none (snapLookup_nil e.id)

/-- Witness for C1: a load previously green and now red over an empty-prev run. -/
theorem c1_diffNotifications_transitions_witness :
    (diffNotifications [] [evaluateLoad lateNoGpsLoad 0] "2024-05-01T12:00:00.000Z"
      ⟨none⟩).1 = [] :=
  (c1_diffNotifications_transitions [] [evaluateLoad lateNoGpsLoad 0]
    "2024-05-01T12:00:00.000Z" ⟨none⟩).2.2

/-! ### The action deriver -/

theorem findPrecedence_some {entries : List PrecedenceEntry} {exs : List ExceptionLike}
    {r : RulePick} {ex : ExceptionLike} (h : findPrecedence entries exs = some (r, ex)) :
    ∃ i, ∃ hi : i < entries.length,
      r = (entries.get ⟨i, hi⟩).rule ∧
      exs.find? (fun e => (entries.get ⟨i, hi⟩).codes.contains e.code) = some ex ∧
      ∀ j, ∀ hj : j < entries.length, j < i →
        exs.find? (fun e => (entries.get ⟨j, hj⟩).codes.contains e.code) = none := by
  induction entries with
  | nil => exact absurd h (by simp [findPrecedence])
  | cons p rest ih =>
    rw [findPrecedence] at h
    cases hfind : exs.find? (fun e => p.codes.contains e.code) with
    | some m =>
      rw [hfind] at h
      obtain ⟨rfl, rfl⟩ : p.rule = r ∧ m = ex := by
        cases h
        exact ⟨rfl, rfl⟩
      exact ⟨0, by simp, rfl, hfind, fun j hj hj0 => absurd hj0 (by omega)⟩
    | none =>
      rw [hfind] at h
      obtain ⟨i, hi, hr, hf, hprev⟩ := ih h
      refine ⟨i + 1, by simpa using Nat.succ_lt_succ hi, hr, hf, ?_⟩
      intro j hj hji
      cases j with
      | zero => exact hfind
      | succ j' => exact hprev j' (by simpa using Nat.lt_of_succ_lt_succ hj) (by omega)

theorem findPrecedence_none {entries : List PrecedenceEntry} {exs : List ExceptionLike} :
    findPrecedence entries exs = none ↔
      ∀ p ∈ entries, exs.find? (fun e => p.codes.contains e.code) = none := by
  induction entries with
  | nil => simp [findPrecedence]
  | cons p rest ih =>
    rw [findPrecedence]
    cases hfind : exs.find? (fun e => p.codes.contains e.code) with
    | some m =>
      refine iff_of_false (by simp) ?_
      intro hall
      have hp := hall p (List.mem_cons_self p rest)
      rw [hp] at hfind
      cases hfind
    | none =>
      constructor
      · intro h q hq
        rcases List.mem_cons.mp hq with rfl | hq'
        · exact hfind
        · exact ih.mp h q hq'
      · intro h
        exact ih.mpr (fun q hq => h q (List.mem_cons_of_mem p hq))

theorem find?_code_isSome (codes : List String) :
    ∀ {exs exs' : List ExceptionLike},
      exs.map (fun e => e.code) = exs'.map (fun e => e.code) →
      (exs.find? (fun e => codes.contains e.code)).isSome
        = (exs'.find? (fun e => codes.contains e.code)).isSome := by
  intro exs
  induction exs with
  | nil =>
    intro exs' h
    cases exs' with
    | nil => rfl
    | cons e' t' => exact absurd h (by simp)
  | cons e t ih =>
    intro exs' h
    cases exs' with
    | nil => exact absurd h (by simp)
    | cons e' t' =>
      simp only [List.map_cons, List.cons.injEq] at h
      rw [List.find?_cons, List.find?_cons, h.1]
      cases hc : codes.contains e'.code with
      | true => rfl
      | false => exact ih h.2

theorem findPrecedence_ruleId_congr {exs exs' : List ExceptionLike}
    (h : exs.map (fun e => e.code) = exs'.map (fun e => e.code)) :
    ∀ entries : List PrecedenceEntry,
      (findPrecedence entries exs).map (fun r => r.1.ruleId)
        = (findPrecedence entries exs').map (fun r => r.1.ruleId) := by
  intro entries
  induction entries with
  | nil => simp [findPrecedence]
  | cons p rest ih =>
    rw [findPrecedence, findPrecedence]
    have hs := find?_code_isSome p.codes h
    cases hfind : exs.find? (fun e => p.codes.contains e.code) with
    | some m =>
      rw [hfind] at hs
      cases hfind' : exs'.find? (fun e => p.codes.contains e.code) with
      | some m' => simp
      | none =>
        rw [hfind'] at hs
        exact absurd hs (by simp)
    | none =>
      rw [hfind] at hs
      cases hfind' : exs'.find? (fun e => p.codes.contains e.code) with
      | some m' =>
        rw [hfind'] at hs
        exact absurd hs (by simp)
      | none => exact ih

theorem pickActionForLoad_eq_of_findPrecedence {l : ActionDeriveLoad} {t : String}
    {r : RulePick} {ex : ExceptionLike} (hne : ¬l.exceptions.isEmpty)
    (hf : findPrecedence EXCEPTION_PRECEDENCE l.exceptions = some (r, ex)) :
    pickActionForLoad l t = some
      { id := mkId l.loadId r.ruleId
        loadId := l.loadId
        title := r.title l.lane
        detail := r.detail.map (fun f => f l.lane)
        actionType := r.actionType
        href := r.href ⟨l.carrierPhone, l.driverPhone, l.pickupAddress, l.deliveryAddress⟩
        priority := r.priority
        dueAtISO := match r.dueAtISO with
          | some f => f ex
          | none => ex.dueAtISO
        createdAtISO := t
        status := .OPEN
        ruleId := r.ruleId } := by
  rw [pickActionForLoad, if_neg hne, hf]

/-- C2: `deriveActions` yields at most one action per input load (it is a
permutation of a per-load `filterMap`); a produced action's rule is the first
precedence-table entry whose code appears among the load's exceptions; a load
matching no table entry contributes nothing; the action id is the
deterministic `loadId__ruleId`, so equal exception code lists on the same
load id always yield the same action id. -/
theorem c2_deriveActions_spec (loads : List ActionDeriveLoad) (nowISO : String) :
    (deriveActions loads nowISO).Perm
      (loads.filterMap (fun l => pickActionForLoad l nowISO)) ∧
    (∀ l : ActionDeriveLoad, ∀ a : BrokerAction, pickActionForLoad l nowISO = some a →
      a.id = l.loadId ++ "__" ++ a.ruleId ∧ a.loadId = l.loadId ∧
      ∃ i, ∃ hi : i < EXCEPTION_PRECEDENCE.length,
        a.ruleId = (EXCEPTION_PRECEDENCE.get ⟨i, hi⟩).rule.ruleId ∧
        (∃ ex ∈ l.exceptions, ex.code ∈ (EXCEPTION_PRECEDENCE.get ⟨i, hi⟩).codes) ∧
        (∀ j, ∀ hj : j < EXCEPTION_PRECEDENCE.length, j < i →
          ∀ ex ∈ l.exceptions, ex.code ∉ (EXCEPTION_PRECEDENCE.get ⟨j, hj⟩).codes)) ∧
    (∀ l : ActionDeriveLoad, pickActionForLoad l nowISO = none ↔
      (l.exceptions = [] ∨
        ∀ ex ∈ l.exceptions, ∀ p ∈ EXCEPTION_PRECEDENCE, ex.code ∉ p.codes)) ∧
    (∀ (l l' : ActionDeriveLoad) (t t' : String), l.loadId = l'.loadId →
      l.exceptions.map (fun e => e.code) = l'.exceptions.map (fun e => e.code) →
      (pickActionForLoad l t).map (fun a => a.id)
        = (pickActionForLoad l' t').map (fun a => a.id)) := by
  refine ⟨List.mergeSort_perm _ _, ?_, ?_, ?_⟩
  · intro l a ha
    rw [pickActionForLoad] at ha
    by_cases hne : l.exceptions.isEmpty
    · rw [if_pos hne] at ha
      exact absurd ha (by simp)
    · rw [if_neg hne] at ha
      cases hfp : findPrecedence EXCEPTION_PRECEDENCE l.exceptions with
      | none =>
        rw [hfp] at ha
        exact absurd ha (by simp)
      | some rex =>
        rw [hfp] at ha
        obtain ⟨r, ex⟩ := rex
        cases ha
        obtain ⟨i, hi, hr, hf, hprev⟩ := findPrecedence_some hfp
        refine ⟨rfl, rfl, i, hi, by rw [hr], ?_, ?_⟩
        · refine ⟨ex, List.mem_of_find?_eq_some hf, ?_⟩
          have := List.find?_some hf
          simpa using this
        · intro j hj hji x hx
          have hn := hprev j hj hji
          rw [List.find?_eq_none] at hn
          have := hn x hx
          simpa using this
  · intro l
    rw [pickActionForLoad]
    by_cases hne : l.exceptions.isEmpty
    · simp only [if_pos hne]
      exact iff_of_true (by trivial) (Or.inl (List.isEmpty_iff.mp hne))
    · simp only [if_neg hne]
      cases hfp : findPrecedence EXCEPTION_PRECEDENCE l.exceptions with
      | none =>
        refine iff_of_true (by trivial) (Or.inr ?_)
        intro x hx p hp
        have hn := findPrecedence_none.mp hfp p hp
        rw [List.find?_eq_none] at hn
        have := hn x hx
        simpa using this
      | some rex =>
        obtain ⟨r, ex⟩ := rex
        refine iff_of_false (by simp) ?_
        rintro (hnil | hall)
        · exact hne (by simp [hnil])
        · obtain ⟨i, hi, -, hf, -⟩ := findPrecedence_some hfp
          have hmem := List.mem_of_find?_eq_some hf
          have hp := List.find?_some hf
          exact hall ex hmem (EXCEPTION_PRECEDENCE.get ⟨i, hi⟩)
            (EXCEPTION_PRECEDENCE.get_mem i hi) (by simpa using hp)
  · intro l l' t t' hload hcodes
    by_cases hne : l.exceptions.isEmpty
    · have hne' : l'.exceptions.isEmpty := by
        rw [List.isEmpty_iff] at hne ⊢
        rw [hne] at hcodes
        exact List.map_eq_nil_iff.mp hcodes.symm
      rw [pickActionForLoad, pickActionForLoad, if_pos hne, if_pos hne']
    · have hne' : ¬l'.exceptions.isEmpty := by
        rw [List.isEmpty_iff] at hne ⊢
        intro hnil
        rw [hnil] at hcodes
        exact hne (List.map_eq_nil_iff.mp hcodes)
      have hcongr := findPrecedence_ruleId_congr hcodes EXCEPTION_PRECEDENCE
      cases hfp : findPrecedence EXCEPTION_PRECEDENCE l.exceptions with
      | none =>
        rw [hfp] at hcongr
        cases hfp' : findPrecedence EXCEPTION_PRECEDENCE l'.exceptions with
        | none =>
          rw [pickActionForLoad, pickActionForLoad, if_neg hne, if_neg hne', hfp, hfp']
        | some rex' =>
          rw [hfp'] at hcongr
          exact absurd hcongr (by simp)
      | some rex =>
        obtain ⟨r, ex⟩ := rex
        rw [hfp] at hcongr
        cases hfp' : findPrecedence EXCEPTION_PRECEDENCE l'.exceptions with
        | none =>
          rw [hfp'] at hcongr
          exact absurd hcongr (by simp)
        | some rex' =>
          obtain ⟨r', ex'⟩ := rex'
          rw [hfp'] at hcongr
          have hrid : r.ruleId = r'.ruleId := by simpa using hcongr
          rw [pickActionForLoad_eq_of_findPrecedence hne hfp,
            pickActionForLoad_eq_of_findPrecedence hne' hfp']
          simp only [Option.map_some']
          rw [show mkId l.loadId r.ruleId = mkId l'.loadId r'.ruleId by
            rw [mkId, mkId, hload, hrid]]

/-- Witness for C2: a load with PICKUP_LATE and NO_GPS exceptions picks the
NO_GPS rule and the deterministic id. -/
theorem c2_deriveActions_spec_witness :
    (⟨"L-1__NO_GPS_CALL", "L-1", "Call carrier: location update", some "Confirm truck location and next check-in time.", "CALL", some "tel:+15035550111", 1, none, "t0", .OPEN, "NO_GPS_CALL"⟩ : BrokerAction).id
      = "L-1" ++ "__" ++ "NO_GPS_CALL" :=
  ((c2_deriveActions_spec [] "t0").2.1
    { loadId := "L-1", lane := none, carrierPhone := some "+15035550111",
      driverPhone := none, pickupAddress := none, deliveryAddress := none,
      exceptions := [⟨"PICKUP_LATE", none⟩, ⟨"NO_GPS", none⟩] }
    _ (by decide)).1

/-! ### The action-state store -/

theorem find?_key_cons_pos {β : Type} {q : String × β} {t : List (String × β)}
    {k : String} (h : (q.1 == k) = true) :
    (q :: t).find? (fun p => p.1 == k) = some q := by
  simp [List.find?_cons, h]

theorem find?_key_cons_neg {β : Type} {q : String × β} {t : List (String × β)}
    {k : String} (h : (q.1 == k) = false) :
    (q :: t).find? (fun p => p.1 == k) = t.find? (fun p => p.1 == k) := by
  simp [List.find?_cons, h]

theorem stateLookup_stateSet_self :
    ∀ (m : ActionStateMap) (k : String) (v : ActionStateEntry),
      stateLookup (stateSet m k v) k = some v := by
  intro m k v
  induction m with
  | nil => simp [stateLookup, stateSet]
  | cons q t ih =>
    rw [stateSet]
    by_cases hq : (q.1 == k) = true
    · rw [if_pos hq]
      unfold stateLookup
      rw [find?_key_cons_pos (by simp)]
      rfl
    · rw [if_neg hq]
      unfold stateLookup at ih ⊢
      rw [find?_key_cons_neg (Bool.eq_false_iff.mpr hq)]
      exact ih

theorem stateLookup_stateSet_ne :
    ∀ (m : ActionStateMap) (k k' : String) (v : ActionStateEntry), k ≠ k' →
      stateLookup (stateSet m k v) k' = stateLookup m k' := by
  intro m k k' v hne
  have hkk : ((k == k') : Bool) = false := by
    simpa using hne
  induction m with
  | nil =>
    unfold stateLookup stateSet
    rw [find?_key_cons_neg hkk]
  | cons q t ih =>
    rw [stateSet]
    by_cases hq : (q.1 == k) = true
    · have hq1 : q.1 = k := by simpa using hq
      rw [if_pos hq]
      unfold stateLookup
      rw [find?_key_cons_neg hkk, find?_key_cons_neg (by rw [hq1]; exact hkk)]
    · rw [if_neg hq]
      unfold stateLookup at ih ⊢
      by_cases hq' : (q.1 == k') = true
      · rw [find?_key_cons_pos hq', find?_key_cons_pos hq']
      · rw [find?_key_cons_neg (Bool.eq_false_iff.mpr hq'),
          find?_key_cons_neg (Bool.eq_false_iff.mpr hq')]
        exact ih

theorem stateLookup_filter_of_true (f : String → Bool) :
    ∀ (m : ActionStateMap) (k : String), f k = true →
      stateLookup (m.filter (fun p => f p.1)) k = stateLookup m k := by
  intro m k hf
  induction m with
  | nil => simp [stateLookup]
  | cons q t ih =>
    by_cases hq : (q.1 == k) = true
    · have hq1 : q.1 = k := by simpa using hq
      rw [List.filter_cons, if_pos (by rw [hq1]; exact hf)]
      unfold stateLookup
      rw [find?_key_cons_pos hq, find?_key_cons_pos hq]
    · rw [List.filter_cons]
      unfold stateLookup at ih ⊢
      by_cases hfq : f q.1 = true
      · rw [if_pos hfq, find?_key_cons_neg (Bool.eq_false_iff.mpr hq),
          find?_key_cons_neg (Bool.eq_false_iff.mpr hq)]
        exact ih
      · rw [if_neg hfq, find?_key_cons_neg (Bool.eq_false_iff.mpr hq)]
        exact ih

/-- The per-element action outcome of the `overlayActionState` loop (proof
helper: the case split of `overlayGo` on one element). -/
def overlayStepAction (a : BrokerAction) (entry : Option ActionStateEntry)
    (nowISO : String) : BrokerAction :=
  match entry with
  | none => a
  | some entry =>
    if entry.status = .SNOOZED then
      match entry.snoozeUntilISO with
      | some u =>
        if u ≠ "" ∧ u ≤ nowISO then { a with status := .OPEN }
        else { a with status := entry.status }
      | none => { a with status := entry.status }
    else { a with status := entry.status }

/-- The per-element persisted-entry outcome of the `overlayActionState` loop
(proof helper: the case split of `overlayGo` on one element). -/
def overlayStepEntry (entry : Option ActionStateEntry) (nowISO : String) :
    Option ActionStateEntry :=
  match entry with
  | none => none
  | some entry =>
    if entry.status = .SNOOZED then
      match entry.snoozeUntilISO with
      | some u =>
        if u ≠ "" ∧ u ≤ nowISO then some ⟨.OPEN, none, nowISO⟩ else some entry
      | none => some entry
    else some entry

theorem overlayGo_lookup_not_mem (nowISO : String) :
    ∀ (actions : List BrokerAction) (st : ActionStateMap) (k : String),
      k ∉ actions.map (fun a => a.id) →
      stateLookup (overlayGo nowISO actions st).2 k = stateLookup st k := by
  intro actions
  induction actions with
  | nil =>
    intro st k _
    rfl
  | cons a rest ih =>
    intro st k hk
    simp only [List.map_cons, List.mem_cons, not_or] at hk
    cases hl : stateLookup st a.id with
    | none =>
      simp only [overlayGo, hl]
      exact ih st k hk.2
    | some entry =>
      simp only [overlayGo, hl]
      by_cases hs : entry.status = .SNOOZED
      · rw [if_pos hs]
        cases hu : entry.snoozeUntilISO with
        | some u =>
          simp only [hu]
          by_cases hexp : u ≠ "" ∧ u ≤ nowISO
          · rw [if_pos hexp]
            rw [ih _ k hk.2]
            exact stateLookup_stateSet_ne st a.id k ⟨.OPEN, none, nowISO⟩
              (fun h => hk.1 h.symm)
          · rw [if_neg hexp]
            exact ih st k hk.2
        | none =>
          simp only [hu]
          exact ih st k hk.2
      · rw [if_neg hs]
        exact ih st k hk.2

theorem overlayGo_mem_spec (nowISO : String) :
    ∀ (actions : List BrokerAction) (st : ActionStateMap),
      ((actions.map (fun a => a.id)).Nodup) →
      ∀ a ∈ actions,
        overlayStepAction a (stateLookup st a.id) nowISO ∈ (overlayGo nowISO actions st).1 ∧
        stateLookup (overlayGo nowISO actions st).2 a.id
          = overlayStepEntry (stateLookup st a.id) nowISO := by
  intro actions
  induction actions with
  | nil =>
    intro st _ a ha
    exact absurd ha (List.not_mem_nil a)
  | cons b rest ih =>
    intro st hnd a ha
    simp only [List.map_cons, List.nodup_cons] at hnd
    rcases List.mem_cons.mp ha with rfl | hrest
    · cases hl : stateLookup st a.id with
      | none =>
        simp only [overlayGo, hl]
        refine ⟨List.mem_cons_self _ _, ?_⟩
        rw [overlayGo_lookup_not_mem nowISO rest st a.id hnd.1, hl]
        rfl
      | some entry =>
        simp only [overlayGo, hl]
        by_cases hs : entry.status = .SNOOZED
        · rw [if_pos hs]
          cases hu : entry.snoozeUntilISO with
          | some u =>
            simp only [hu]
            by_cases hexp : u ≠ "" ∧ u ≤ nowISO
            · rw [if_pos hexp]
              constructor
              · rw [overlayStepAction, hs, hu]
                simp only [if_pos hexp]
                exact List.mem_cons_self _ _
              · rw [overlayGo_lookup_not_mem nowISO rest _ a.id hnd.1,
                  stateLookup_stateSet_self, overlayStepEntry, hs, hu]
                simp [hexp]
            · rw [if_neg hexp]
              constructor
              · rw [overlayStepAction, hs, hu]
                simp only [if_neg hexp]
                exact List.mem_cons_self _ _
              · rw [overlayGo_lookup_not_mem nowISO rest st a.id hnd.1, hl,
                  overlayStepEntry, hs, hu]
                rw [if_pos rfl]
                show some entry
                  = if u ≠ "" ∧ u ≤ nowISO then
                      some ⟨ActionStatus.OPEN, none, nowISO⟩
                    else some entry
                rw [if_neg hexp]
          | none =>
            simp only [hu]
            constructor
            · rw [overlayStepAction, hs, hu]
              exact List.mem_cons_self _ _
            · rw [overlayGo_lookup_not_mem nowISO rest st a.id hnd.1, hl,
                overlayStepEntry, hs, hu]
              rfl
        · rw [if_neg hs]
          constructor
          · rw [overlayStepAction]
            split
            · exact absurd (by assumption) hs
            · exact List.mem_cons_self _ _
          · rw [overlayGo_lookup_not_mem nowISO rest st a.id hnd.1, hl,
              overlayStepEntry]
            split
            · exact absurd (by assumption) hs
            · rfl
    · have hbne : b.id ≠ a.id := by
        intro h
        exact hnd.1 (h ▸ List.mem_map_of_mem (fun x => x.id) hrest)
      cases hl : stateLookup st b.id with
      | none =>
        simp only [overlayGo, hl]
        obtain ⟨h1, h2⟩ := ih st hnd.2 a hrest
        exact ⟨List.mem_cons_of_mem _ h1, h2⟩
      | some entry =>
        simp only [overlayGo, hl]
        by_cases hs : entry.status = .SNOOZED
        · rw [if_pos hs]
          cases hu : entry.snoozeUntilISO with
          | some u =>
            simp only [hu]
            by_cases hexp : u ≠ "" ∧ u ≤ nowISO
            · rw [if_pos hexp]
              have hlk : stateLookup (stateSet st b.id ⟨.OPEN, none, nowISO⟩) a.id
                  = stateLookup st a.id :=
                stateLookup_stateSet_ne st b.id a.id _ hbne
              obtain ⟨h1, h2⟩ := ih (stateSet st b.id ⟨.OPEN, none, nowISO⟩) hnd.2 a hrest
              rw [hlk] at h1 h2
              exact ⟨List.mem_cons_of_mem _ h1, h2⟩
            · rw [if_neg hexp]
              obtain ⟨h1, h2⟩ := ih st hnd.2 a hrest
              exact ⟨List.mem_cons_of_mem _ h1, h2⟩
          | none =>
            simp only [hu]
            obtain ⟨h1, h2⟩ := ih st hnd.2 a hrest
            exact ⟨List.mem_cons_of_mem _ h1, h2⟩
        · rw [if_neg hs]
          obtain ⟨h1, h2⟩ := ih st hnd.2 a hrest
          exact ⟨List.mem_cons_of_mem _ h1, h2⟩

theorem stateSet_mem :
    ∀ (m : ActionStateMap) (k : String) (v : ActionStateEntry) (q : String × ActionStateEntry),
      q ∈ stateSet m k v → q ∈ m ∨ q = (k, v) := by
  intro m k v q hq
  induction m with
  | nil =>
    rw [stateSet] at hq
    exact Or.inr (List.mem_singleton.mp hq)
  | cons p t ih =>
    rw [stateSet] at hq
    by_cases hp : (p.1 == k) = true
    · rw [if_pos hp] at hq
      rcases List.mem_cons.mp hq with rfl | hq'
      · exact Or.inr rfl
      · exact Or.inl (List.mem_cons_of_mem p hq')
    · rw [if_neg hp] at hq
      rcases List.mem_cons.mp hq with rfl | hq'
      · exact Or.inl (List.mem_cons_self q t)
      · rcases ih hq' with h | h
        · exact Or.inl (List.mem_cons_of_mem p h)
        · exact Or.inr h

theorem overlayGo_state_keys (nowISO : String) (ids : List String) :
    ∀ (actions : List BrokerAction) (st : ActionStateMap),
      (∀ p ∈ st, p.1 ∈ ids) → (∀ a ∈ actions, a.id ∈ ids) →
      ∀ p ∈ (overlayGo nowISO actions st).2, p.1 ∈ ids := by
  intro actions
  induction actions with
  | nil =>
    intro st hst _ p hp
    exact hst p hp
  | cons a rest ih =>
    intro st hst hact p hp
    have hrest : ∀ b ∈ rest, b.id ∈ ids := fun b hb => hact b (List.mem_cons_of_mem a hb)
    cases hl : stateLookup st a.id with
    | none =>
      simp only [overlayGo, hl] at hp
      exact ih st hst hrest p hp
    | some entry =>
      simp only [overlayGo, hl] at hp
      by_cases hs : entry.status = .SNOOZED
      · rw [if_pos hs] at hp
        cases hu : entry.snoozeUntilISO with
        | some u =>
          simp only [hu] at hp
          by_cases hexp : u ≠ "" ∧ u ≤ nowISO
          · rw [if_pos hexp] at hp
            refine ih _ ?_ hrest p hp
            intro q hq
            rcases stateSet_mem st a.id ⟨.OPEN, none, nowISO⟩ q hq with h | h
            · exact hst q h
            · rw [h]
              exact hact a (List.mem_cons_self a rest)
          · rw [if_neg hexp] at hp
            exact ih st hst hrest p hp
        | none =>
          simp only [hu] at hp
          exact ih st hst hrest p hp
      · rw [if_neg hs] at hp
        exact ih st hst hrest p hp

/-- C7: after `overlayActionState`, the persisted map it writes and returns
contains only keys that are ids of the derived actions of that call: any
entry whose id is absent from the derived set is dropped. -/
theorem c7_overlay_prunes_stale_keys (persisted : ActionStateMap)
    (derived : List BrokerAction) (nowISO : String) :
    ∀ p ∈ (overlayActionState persisted derived nowISO).state,
      p.1 ∈ derived.map (fun a => a.id) := by
  intro p hp
  have hp' : p ∈ (overlayGo nowISO derived
      (persisted.filter (fun q => (derived.map (fun a => a.id)).contains q.1))).2 := hp
  refine overlayGo_state_keys nowISO (derived.map (fun a => a.id)) derived
    (persisted.filter (fun q => (derived.map (fun a => a.id)).contains q.1))
    ?_ ?_ p hp' 
  · intro q hq
    have := List.of_mem_filter hq
    simpa using this
  · intro a ha
    exact List.mem_map_of_mem (fun x => x.id) ha

/-- Witness for C7: a persisted DONE entry whose action is re-derived
survives, and its key is a derived id. -/
theorem c7_overlay_prunes_stale_keys_witness :
    ("L-1__NO_GPS_CALL" : String)
      ∈ [(⟨"L-1__NO_GPS_CALL", "L-1", "t", none, "CALL", none, 1, none, "t0",
          .OPEN, "NO_GPS_CALL"⟩ : BrokerAction)].map (fun a => a.id) :=
  c7_overlay_prunes_stale_keys
    [("L-1__NO_GPS_CALL", ⟨.DONE, none, "t0"⟩), ("L-9__GONE", ⟨.DONE, none, "t0"⟩)]
    [⟨"L-1__NO_GPS_CALL", "L-1", "t", none, "CALL", none, 1, none, "t0", .OPEN, "NO_GPS_CALL"⟩]
    "t1" ("L-1__NO_GPS_CALL", ⟨.DONE, none, "t0"⟩) (by decide)

/-- C6: `snoozeAction30m` persists SNOOZED with `snoozeUntilISO` exactly 30
minutes of epoch-ms arithmetic past `nowISO`; on overlay, a SNOOZED entry
whose expiry is at or before `nowISO` (string order on canonical ISO — the
expiry instant itself included) comes back OPEN and is rewritten to OPEN with
`updatedAtISO = nowISO`, while a non-expired SNOOZED or DONE entry is
overlaid verbatim. -/
theorem c6_snooze_and_auto_reopen (persisted : ActionStateMap)
    (derived : List BrokerAction) (actionId nowISO : String) (t : Int) :
    (isoToMs nowISO = some t →
      ∃ st, snoozeAction30m persisted actionId nowISO = some st ∧
        stateLookup st actionId
          = some ⟨.SNOOZED, some (msToIso (t + 30 * 60 * 1000)), nowISO⟩) ∧
    ((derived.map (fun a => a.id)).Nodup →
      ∀ a ∈ derived, ∀ entry, stateLookup persisted a.id = some entry →
        (entry.status = .SNOOZED →
          ∀ u, entry.snoozeUntilISO = some u → u ≠ "" → u ≤ nowISO →
            ({ a with status := .OPEN }
                ∈ (overlayActionState persisted derived nowISO).actions ∧
              stateLookup (overlayActionState persisted derived nowISO).state a.id
                = some ⟨.OPEN, none, nowISO⟩)) ∧
        (entry.status = .SNOOZED →
          ∀ u, entry.snoozeUntilISO = some u → u ≠ "" → ¬u ≤ nowISO →
            ({ a with status := .SNOOZED }
                ∈ (overlayActionState persisted derived nowISO).actions ∧
              stateLookup (overlayActionState persisted derived nowISO).state a.id
                = some entry)) ∧
        (entry.status = .DONE →
          ({ a with status := .DONE }
              ∈ (overlayActionState persisted derived nowISO).actions ∧
            stateLookup (overlayActionState persisted derived nowISO).state a.id
              = some entry))) := by
  constructor
  · intro h
    rw [snoozeAction30m, h]
    exact ⟨_, rfl, stateLookup_stateSet_self _ _ _⟩
  · intro hnd a ha entry hentry
    have hcont : ((derived.map (fun x => x.id)).contains a.id) = true := by
      simpa using List.mem_map_of_mem (fun x => x.id) ha
    have hpr : stateLookup
        (persisted.filter (fun p => (derived.map (fun x => x.id)).contains p.1)) a.id
        = stateLookup persisted a.id :=
      stateLookup_filter_of_true _ persisted a.id hcont
    have hspec := overlayGo_mem_spec nowISO derived
      (persisted.filter (fun p => (derived.map (fun x => x.id)).contains p.1)) hnd a ha
    rw [hpr, hentry] at hspec
    obtain ⟨hmem, hstate⟩ := hspec
    refine ⟨?_, ?_, ?_⟩
    · intro hs u hu hne hle
      simp only [overlayStepAction, overlayStepEntry] at hmem hstate
      rw [if_pos hs] at hmem hstate
      simp only [hu] at hmem hstate
      rw [if_pos ⟨hne, hle⟩] at hmem hstate
      exact ⟨hmem, hstate⟩
    · intro hs u hu hne hnle
      have hexp : ¬(u ≠ "" ∧ u ≤ nowISO) := fun h => hnle h.2
      simp only [overlayStepAction, overlayStepEntry] at hmem hstate
      rw [if_pos hs] at hmem hstate
      simp only [hu] at hmem hstate
      rw [if_neg hexp] at hmem hstate
      rw [hs] at hmem
      exact ⟨hmem, hstate⟩
    · intro hd
      have hs : ¬entry.status = .SNOOZED := by
        rw [hd]
        intro h
        cases h
      simp only [overlayStepAction, overlayStepEntry] at hmem hstate
      rw [if_neg hs] at hmem hstate
      rw [hd] at hmem
      exact ⟨hmem, hstate⟩

/-- A sample derived action for concrete overlay runs. -/
def sampleAction : BrokerAction :=
  ⟨"L-1__NO_GPS_CALL", "L-1", "t", none, "CALL", none, 1, none, "t0", .OPEN, "NO_GPS_CALL"⟩

/-- A sample snoozed entry that expires at 11:30. -/
def snoozedEntry : ActionStateEntry :=
  ⟨.SNOOZED, some "2024-05-01T11:30:00.000Z", "2024-05-01T11:00:00.000Z"⟩

/-- A sample persisted store holding the snoozed entry. -/
def sampleStore : ActionStateMap :=
  [("L-1__NO_GPS_CALL", snoozedEntry)]

/-- Witness for C6: an action snoozed until 11:30 overlaid at 12:00 reopens,
and the persisted entry becomes OPEN at 12:00. -/
theorem c6_snooze_and_auto_reopen_witness :
    ({ sampleAction with status := ActionStatus.OPEN }
        ∈ (overlayActionState sampleStore [sampleAction]
            "2024-05-01T12:00:00.000Z").actions ∧
      stateLookup (overlayActionState sampleStore [sampleAction]
            "2024-05-01T12:00:00.000Z").state sampleAction.id
        = some ⟨.OPEN, none, "2024-05-01T12:00:00.000Z"⟩) :=
  ((c6_snooze_and_auto_reopen sampleStore [sampleAction] "x"
      "2024-05-01T12:00:00.000Z" 0).2
    (by decide) sampleAction (by decide) snoozedEntry (by decide)).1 (by decide)
    "2024-05-01T11:30:00.000Z" (by decide) (by decide)
    (String.le_iff_toList_le.mpr (by decide))

/-! ### Persistence degradation -/

/-- C9 counterexample: a stored JSON array — valid JSON, but not the shape of
a snapshot map — is returned as-is by `loadSnapshots`, not replaced by the
empty collection: the load functions validate only `typeof === "object"`. -/
theorem c9_load_shape_counterexample :
    loadSnapshots (.ok (some "[0]")) = Json.arr [Json.num "0"] ∧
    loadSnapshots (.ok (some "[0]")) ≠ Json.obj [] := by
  refine ⟨rfl, ?_⟩
  intro h
  rw [show loadSnapshots (.ok (some "[0]")) = Json.arr [Json.num "0"] from rfl] at h
  exact Json.noConfusion h

/-- C9 (amended): loading degrades to the empty collection on a missing or
empty stored value, on malformed JSON, and on a parsed value that is not a
truthy object (not an array, for the contact log); a parseable object or
array is returned as-is with no deeper shape validation; `saveSnapshots`
swallows its write outcome; `loadActionState`/`loadContactLog` wrap the
parse totally (only the storage read itself is outside their `try`). -/
theorem c9_persistence_degrades (s : String) (v : Json) (stored : Option String)
    (w : Except Unit Unit) :
    loadSnapshots (.error ()) = Json.obj [] ∧
    loadSnapshots (.ok none) = Json.obj [] ∧
    loadSnapshots (.ok (some "")) = Json.obj [] ∧
    (jsonParse s = none → loadSnapshots (.ok (some s)) = Json.obj []) ∧
    (jsonParse s = some v → isTruthyObject v = false →
      loadSnapshots (.ok (some s)) = Json.obj []) ∧
    (jsonParse s = some v → isTruthyObject v = true →
      loadSnapshots (.ok (some s)) = v) ∧
    saveSnapshots w = () ∧
    safeParse none = Json.obj [] ∧
    (jsonParse s = none → safeParse (some s) = Json.obj []) ∧
    (jsonParse s = some v → isTruthyObject v = false →
      safeParse (some s) = Json.obj []) ∧
    (jsonParse s = some v → isTruthyObject v = true → safeParse (some s) = v) ∧
    loadActionState (.ok stored) = .ok (safeParse stored) ∧
    safeParseArray none = Json.arr [] ∧
    (jsonParse s = none → safeParseArray (some s) = Json.arr []) ∧
    (∀ elems, jsonParse s = some (Json.arr elems) →
      safeParseArray (some s) = Json.arr elems) ∧
    (jsonParse s = some v → (∀ elems, v ≠ Json.arr elems) →
      safeParseArray (some s) = Json.arr []) ∧
    loadContactLog (.ok stored) = .ok (safeParseArray stored) := by
  have hempty : jsonParse "" = none := rfl
  refine ⟨rfl, rfl, rfl, ?_, ?_, ?_, rfl, rfl, ?_, ?_, ?_, rfl, rfl, ?_, ?_, ?_, rfl⟩
  · intro hp
    rw [loadSnapshots]
    by_cases hs : s = ""
    · rw [if_pos hs]
    · rw [if_neg hs, hp]
  · intro hp ht
    have hs : s ≠ "" := by
      intro h
      rw [h, hempty] at hp
      exact Option.noConfusion hp
    rw [loadSnapshots, if_neg hs, hp]
    simp only [ht, Bool.false_eq_true, if_false]
  · intro hp ht
    have hs : s ≠ "" := by
      intro h
      rw [h, hempty] at hp
      exact Option.noConfusion hp
    rw [loadSnapshots, if_neg hs, hp]
    simp only [ht, if_true]
  · intro hp
    rw [safeParse]
    by_cases hs : s = ""
    · rw [if_pos hs]
    · rw [if_neg hs, hp]
  · intro hp ht
    have hs : s ≠ "" := by
      intro h
      rw [h, hempty] at hp
      exact Option.noConfusion hp
    rw [safeParse, if_neg hs, hp]
    simp only [ht, Bool.false_eq_true, if_false]
  · intro hp ht
    have hs : s ≠ "" := by
      intro h
      rw [h, hempty] at hp
      exact Option.noConfusion hp
    rw [safeParse, if_neg hs, hp]
    simp only [ht, if_true]
  · intro hp
    rw [safeParseArray]
    by_cases hs : s = ""
    · rw [if_pos hs]
    · rw [if_neg hs, hp]
  · intro elems hp
    have hs : s ≠ "" := by
      intro h
      rw [h, hempty] at hp
      exact Option.noConfusion hp
    rw [safeParseArray, if_neg hs, hp]
  · intro hp hnot
    have hs : s ≠ "" := by
      intro h
      rw [h, hempty] at hp
      exact Option.noConfusion hp
    rw [safeParseArray, if_neg hs, hp]
    cases v with
    | arr elems => exact absurd rfl (hnot elems)
    | null => rfl
    | bool b => rfl
    | num r => rfl
    | str t => rfl
    | obj fields => rfl

/-- Witness for C9 (amended): a stored JSON number degrades to the empty map. -/
theorem c9_persistence_degrades_witness :
    loadSnapshots (.ok (some "7")) = Json.obj [] :=
  (c9_persistence_degrades "7" (Json.num "7") none (.ok ())).2.2.2.2.1 rfl rfl

/-! ### The exception comparator as a lexicographic order -/

theorem exLe_iff (a b : Exception) :
    exLe a b = true ↔
      (severityRank b.severity < severityRank a.severity ∨
        (severityRank a.severity = severityRank b.severity ∧
          (b.score < a.score ∨ (a.score = b.score ∧ a.code ≤ b.code)))) := by
  unfold exLe exCmp
  simp only [decide_eq_true_eq]
  split_ifs with h1 h2 h3 h4
  · constructor
    · intro h
      exact Or.inl (by omega)
    · rintro (h | ⟨he, -⟩) <;> omega
  · constructor
    · intro h
      exact Or.inr ⟨by omega, Or.inl (by omega)⟩
    · rintro (h | ⟨-, h | ⟨h, -⟩⟩) <;> omega
  · constructor
    · intro _
      exact Or.inr ⟨by omega, Or.inr ⟨by omega, le_of_lt h3⟩⟩
    · intro _
      norm_num
  · constructor
    · intro h
      omega
    · rintro (h | ⟨-, h | ⟨-, hc⟩⟩)
      · omega
      · omega
      · exact absurd hc (not_le.mpr h4)
  · constructor
    · intro _
      exact Or.inr ⟨by omega, Or.inr ⟨by omega, not_lt.mp h4⟩⟩
    · intro _
      norm_num

theorem exLe_trans : ∀ a b c : Exception, exLe a b → exLe b c → exLe a c := by
  intro a b c hab hbc
  rw [exLe_iff] at hab hbc ⊢
  rcases hab with h1 | ⟨e1, hs1⟩ <;> rcases hbc with h2 | ⟨e2, hs2⟩
  · exact Or.inl (by omega)
  · exact Or.inl (by omega)
  · exact Or.inl (by omega)
  · refine Or.inr ⟨by omega, ?_⟩
    rcases hs1 with h1 | ⟨s1, c1⟩ <;> rcases hs2 with h2 | ⟨s2, c2⟩
    · exact Or.inl (by omega)
    · exact Or.inl (by omega)
    · exact Or.inl (by omega)
    · exact Or.inr ⟨by omega, le_trans c1 c2⟩

theorem exLe_total : ∀ a b : Exception, exLe a b || exLe b a := by
  intro a b
  rw [Bool.or_eq_true, exLe_iff, exLe_iff]
  rcases lt_trichotomy (severityRank a.severity) (severityRank b.severity) with h | h | h
  · exact Or.inr (Or.inl h)
  · rcases lt_trichotomy a.score b.score with h' | h' | h'
    · exact Or.inr (Or.inr ⟨h.symm, Or.inl h'⟩)
    · rcases le_total a.code b.code with hc | hc
      · exact Or.inl (Or.inr ⟨h, Or.inr ⟨h', hc⟩⟩)
      · exact Or.inr (Or.inr ⟨h.symm, Or.inr ⟨h'.symm, hc⟩⟩)
    · exact Or.inl (Or.inr ⟨h, Or.inl h'⟩)
  · exact Or.inl (Or.inl h)

theorem computedStatus_spec (exs : List Exception) :
    (computedStatusFromExceptions exs = .red ↔ ∃ e ∈ exs, e.status = .red) ∧
    (computedStatusFromExceptions exs = .yellow ↔
      ((∀ e ∈ exs, e.status ≠ .red) ∧ ∃ e ∈ exs, e.status = .yellow)) ∧
    (computedStatusFromExceptions exs = .green ↔
      ∀ e ∈ exs, e.status ≠ .red ∧ e.status ≠ .yellow) := by
  unfold computedStatusFromExceptions
  split_ifs with h1 h2
  · have H1 : ∃ e ∈ exs, e.status = .red := by simpa using h1
    obtain ⟨e, he, hst⟩ := H1
    refine ⟨iff_of_true rfl ⟨e, he, hst⟩, iff_of_false (by decide) ?_, iff_of_false (by decide) ?_⟩
    · rintro ⟨hall, -⟩
      exact hall e he hst
    · intro H
      exact (H e he).1 hst
  · have H1 : ¬∃ e ∈ exs, e.status = .red := by simpa using h1
    have H2 : ∃ e ∈ exs, e.status = .yellow := by simpa using h2
    obtain ⟨e, he, hst⟩ := H2
    refine ⟨iff_of_false (by decide) H1,
      iff_of_true rfl ⟨fun x hx hr => H1 ⟨x, hx, hr⟩, e, he, hst⟩,
      iff_of_false (by decide) ?_⟩
    intro H
    exact (H e he).2 hst
  · have H1 : ¬∃ e ∈ exs, e.status = .red := by simpa using h1
    have H2 : ¬∃ e ∈ exs, e.status = .yellow := by simpa using h2
    refine ⟨iff_of_false (by decide) H1, iff_of_false (by decide) ?_,
      iff_of_true rfl (fun e he => ⟨fun hr => H1 ⟨e, he, hr⟩, fun hy => H2 ⟨e, he, hy⟩⟩)⟩
    rintro ⟨-, hy⟩
    exact H2 hy

/-- C4: `evaluateLoad` returns the rule exceptions sorted by severity
descending, then score descending, then code ascending; `computedStatus` is
red iff some exception is red, else yellow iff some is yellow, else green;
`computedRiskReason` is the first sorted exception's detail (`none` when
green) and `computedNextAction` its next action (a fixed default when green). -/
theorem c4_evaluateLoad_spec (load : Load) (now : Int) :
    ((evaluateLoad load now).exceptions).Perm (evaluateRules load ⟨now⟩) ∧
    ((evaluateLoad load now).exceptions).Pairwise (fun a b =>
      severityRank b.severity < severityRank a.severity ∨
      (severityRank a.severity = severityRank b.severity ∧
        (b.score < a.score ∨ (a.score = b.score ∧ a.code ≤ b.code)))) ∧
    ((evaluateLoad load now).computedStatus = .red ↔
      ∃ e ∈ (evaluateLoad load now).exceptions, e.status = .red) ∧
    ((evaluateLoad load now).computedStatus = .yellow ↔
      ((∀ e ∈ (evaluateLoad load now).exceptions, e.status ≠ .red) ∧
        ∃ e ∈ (evaluateLoad load now).exceptions, e.status = .yellow)) ∧
    ((evaluateLoad load now).computedStatus = .green ↔
      ∀ e ∈ (evaluateLoad load now).exceptions, e.status ≠ .red ∧ e.status ≠ .yellow) ∧
    ((evaluateLoad load now).computedStatus = .green →
      (evaluateLoad load now).computedRiskReason = none ∧
      (evaluateLoad load now).computedNextAction = "No action required.") ∧
    ((evaluateLoad load now).computedStatus ≠ .green →
      ∃ e, ((evaluateLoad load now).exceptions).head? = some e ∧
        (evaluateLoad load now).computedRiskReason = some e.detail ∧
        (evaluateLoad load now).computedNextAction = e.nextAction) := by
  have hex : (evaluateLoad load now).exceptions
      = (evaluateRules load ⟨now⟩).mergeSort exLe := rfl
  refine ⟨?_, ?_, ?_, ?_, ?_, ?_, ?_⟩
  · rw [hex]
    exact List.mergeSort_perm _ _
  · rw [hex]
    exact (List.sorted_mergeSort exLe_trans exLe_total _).imp
      (fun h => (exLe_iff _ _).mp h)
  · exact (computedStatus_spec _).1
  · exact (computedStatus_spec _).2.1
  · exact (computedStatus_spec _).2.2
  · intro h
    simp only [evaluateLoad] at h ⊢
    rw [if_pos h, if_pos h]
    exact ⟨rfl, rfl⟩
  · intro h
    obtain ⟨e, t, hcons⟩ : ∃ e t,
        sortExceptionsDeterministic (evaluateRules load ⟨now⟩) = e :: t := by
      cases hx : sortExceptionsDeterministic (evaluateRules load ⟨now⟩) with
      | nil =>
        exfalso
        apply h
        show computedStatusFromExceptions
          (sortExceptionsDeterministic (evaluateRules load ⟨now⟩)) = .green
        rw [hx]
        rfl
      | cons e t => exact ⟨e, t, rfl⟩
    refine ⟨e, ?_, ?_, ?_⟩
    · show (sortExceptionsDeterministic (evaluateRules load ⟨now⟩)).head? = some e
      rw [hcons]
      rfl
    · simp only [evaluateLoad] at h ⊢
      rw [if_neg h, hcons]
      rfl
    · simp only [evaluateLoad] at h ⊢
      rw [if_neg h, hcons]
      rfl

/-- Witness for C4 at a no-GPS, pickup-late load: the primary exception's
detail and next action surface on the evaluated load. -/
theorem c4_evaluateLoad_spec_witness :
    ∃ e, ((evaluateLoad lateNoGpsLoad 0).exceptions).head? = some e ∧
      (evaluateLoad lateNoGpsLoad 0).computedRiskReason = some e.detail ∧
      (evaluateLoad lateNoGpsLoad 0).computedNextAction = e.nextAction :=
  (c4_evaluateLoad_spec lateNoGpsLoad 0).2.2.2.2.2.2 (by decide)

/-- C10: every exception produced by `evaluateRules` keeps the redundant
severity and status fields consistent: severity is risk iff status is red, and
severity is watch iff status is yellow. -/
theorem c10_severity_status_consistent (load : Load) (ctx : RuleCtx) :
    ∀ e ∈ evaluateRules load ctx,
      (e.severity = .risk ↔ e.status = .red) ∧
      (e.severity = .watch ↔ e.status = .yellow) := by
  intro e he
  rw [evaluateRules, List.mem_filterMap] at he
  obtain ⟨o, ho, hoe⟩ := he
  rw [id_eq] at hoe
  subst hoe
  simp only [List.mem_cons, List.not_mem_nil, or_false] at ho
  rcases ho with h | h | h | h | h | h
  · obtain ⟨h1, h2, -⟩ := ruleNoGps_fields h.symm
    rw [h1, h2]; decide
  · obtain ⟨-, h12⟩ := ruleGpsStale_fields h.symm
    rcases h12 with ⟨h1, h2⟩ | ⟨h1, h2⟩ <;> (rw [h1, h2]; decide)
  · obtain ⟨h1, h2, -⟩ := rulePickupLate_fields h.symm
    rw [h1, h2]; decide
  · obtain ⟨h1, h2, -⟩ := ruleDeliveryLate_fields h.symm
    rw [h1, h2]; decide
  · obtain ⟨h1, h2, -⟩ := rulePickupWindowSoon_fields h.symm
    rw [h1, h2]; decide
  · obtain ⟨h1, h2, -⟩ := ruleDeliveryWindowSoon_fields h.symm
    rw [h1, h2]; decide

/-- Witness for C10 at a no-GPS load and its NO_GPS exception. -/
theorem c10_severity_status_consistent_witness :
    let e : Exception :=
      { code := "NO_GPS", severity := .risk, status := .red, title := "No GPS",
        detail := "No GPS data received for this load.",
        nextAction := "Contact driver/carrier to restore tracking immediately.",
        score := SCORES_NO_GPS }
    (e.severity = .risk ↔ e.status = .red) ∧ (e.severity = .watch ↔ e.status = .yellow) :=
  c10_severity_status_consistent
    { sampleLoad with lastGpsMinutesAgo := none } ⟨0⟩ _ (by decide)

end Broker
